import Mathlib

/-!
Verification development for the derived-variable computation and aggregation
engine of src/Python/wrfavg/derived_variables_mm.py (WRF-Tools).

Modelling conventions (shallow embedding):
* Floating-point scalars are modelled exactly as rationals, with an explicit
  marker for IEEE NaN: the type FV below.  Arithmetic on FV propagates NaN the
  way numpy does; numpy comparisons with NaN yield False.
* A numpy array with a leading time axis is a list of time steps; purely
  spatial axes that every operation treats elementwise are flattened into a
  single inner list.  Array shapes are tracked by explicit hypotheses where a
  theorem needs rectangularity (ndarrays are rectangular by construction).
* A raised Python exception is an Except.error carrying a short tag naming the
  exception; dictionaries of temporary state are passed and returned
  explicitly (the driver owns them between calls).
-/

deriving instance DecidableEq for Except

/-- A floating-point value: either NaN or an exact (rational) number. -/
inductive FV where
  | nan : FV
  | val : ℚ → FV
deriving DecidableEq, Repr

namespace FV

/-- Test for NaN, as np.isnan. -/
def isnan : FV → Bool
  | nan => true
  | val _ => false

/-- The np.nan_to_num map on one scalar: NaN becomes zero. -/
def toQ : FV → ℚ
  | nan => 0
  | val q => q

/-- Addition, propagating NaN as IEEE floats do. -/
def add : FV → FV → FV
  | val a, val b => val (a + b)
  | _, _ => nan

/-- Division by a (rational) count, propagating NaN. -/
def divq : FV → ℚ → FV
  | val a, n => val (a / n)
  | nan, _ => nan

/-- Comparison x > t against a plain number: NaN compares False (numpy). -/
def fgtQ : FV → ℚ → Bool
  | nan, _ => false
  | val a, t => decide (a > t)

/-- Comparison x < t against a plain number: NaN compares False (numpy). -/
def fltQ : FV → ℚ → Bool
  | nan, _ => false
  | val a, t => decide (a < t)

/-- The np.maximum binary operation: NaN propagates. -/
def npmax : FV → FV → FV
  | val a, val b => val (max a b)
  | _, _ => nan

/-- The np.minimum binary operation: NaN propagates. -/
def npmin : FV → FV → FV
  | val a, val b => val (min a b)
  | _, _ => nan

/-- The np.fmax binary operation: NaN is ignored when the other side is a number. -/
def fmax : FV → FV → FV
  | val a, val b => val (max a b)
  | nan, b => b
  | a, nan => a

/-- The np.fmin binary operation: NaN is ignored when the other side is a number. -/
def fmin : FV → FV → FV
  | val a, val b => val (min a b)
  | nan, b => b
  | a, nan => a

end FV

/-- Total number of elements of a two-dimensional array (ndarray.size). -/
def npsize (a : List (List FV)) : ℕ := (a.map List.length).sum

/-- The np.sum reduction along axis 0 (time) of a two-dimensional array:
    elementwise sum of the rows, NaN propagating. -/
def npSum : List (List FV) → List FV
  | [] => []
  | [r] => r
  | r :: rs => List.zipWith FV.add r (npSum rs)

/-- The np.nansum reduction along axis 0: NaN entries count as zero, so every
    output entry is a plain number. -/
def npNanSum : List (List FV) → List FV
  | [] => []
  | [r] => r.map (fun x => FV.val x.toQ)
  | r :: rs => List.zipWith (fun x s => FV.val (x.toQ + s.toQ)) r (npNanSum rs)

/-- The np.mean reduction along axis 0: sum divided by the number of rows. -/
def npMean (a : List (List FV)) : List FV :=
  (npSum a).map (fun x => x.divq (a.length : ℚ))

/-- Per-column running pair of (sum of non-NaN entries, count of non-NaN
    entries) used by np.nanmean. -/
def npNanMeanAux : List (List FV) → List (ℚ × ℕ)
  | [] => []
  | [r] => r.map (fun x => if x.isnan then (0, 0) else (x.toQ, 1))
  | r :: rs =>
      List.zipWith (fun x sc => if x.isnan then sc else (sc.1 + x.toQ, sc.2 + 1))
        r (npNanMeanAux rs)

/-- The np.nanmean reduction along axis 0: mean of the non-NaN entries of each
    column; a column of NaNs only yields NaN. -/
def npNanMean (a : List (List FV)) : List FV :=
  (npNanMeanAux a).map (fun sc => if sc.2 = 0 then FV.nan else FV.val (sc.1 / (sc.2 : ℚ)))

/-!
DerivedVariable.aggregateValues (derived_variables_mm.py lines 286-304).
The default aggregation: raises TypeError when the newly computed chunk is not
an ndarray (in particular when it is None); when the chunk has at least one
element, an absent accumulator with normalize=True raises DerivedVariableError,
an absent accumulator with normalize=False returns the chunk mean
(np.nanmean when ignoreNaN), a present accumulator with normalize=False raises
DerivedVariableError, and otherwise the chunk sum (np.nansum when ignoreNaN) is
added onto the accumulator; an empty chunk returns the accumulator unchanged.
The method never divides a present accumulator by a sample count.
-/
def DerivedVariable.aggregateValues (normalize ignoreNaN : Bool)
    (comdata : Option (List (List FV))) (aggdata : Option (List FV)) :
    Except String (Option (List FV)) :=
  match comdata with
  | none => .error "TypeError"
  | some com =>
    if 0 < npsize com then
      match aggdata with
      | none =>
        if normalize then
          .error "DerivedVariableError: the one-pass aggregation automatically normalizes"
        else if ignoreNaN then .ok (some (npNanMean com))
        else .ok (some (npMean com))
      | some agg =>
        if !normalize then
          .error "DerivedVariableError: the default aggregation requires normalization"
        else if ignoreNaN then .ok (some (List.zipWith FV.add agg (npNanSum com)))
        else .ok (some (List.zipWith FV.add agg (npSum com)))
    else .ok aggdata

/-!
Extrema.aggregateValues (derived_variables_mm.py lines 1397-1422).
Aggregation for extremum variables: normalize=True is rejected outright; an
absent (None) or empty chunk returns the accumulator unchanged; a first chunk
initializes the accumulator; otherwise the accumulator is merged elementwise by
maximum (mode 1) or minimum (mode 0), NaN-safe (np.fmax/np.fmin) when
ignoreNaN is set and NaN-propagating (np.maximum/np.minimum) otherwise.
-/
def Extrema.aggregateValues (mode : ℕ) (ignoreNaN normalize : Bool)
    (comdata : Option (List FV)) (aggdata : Option (List FV)) :
    Except String (Option (List FV)) :=
  if normalize then
    .error "DerivedVariableError: aggregated extrema should not be normalized"
  else
    match comdata with
    | none => .ok aggdata
    | some com =>
      if 0 < com.length then
        match aggdata with
        | none => .ok (some com)
        | some agg =>
          if mode = 1 then
            if ignoreNaN then .ok (some (List.zipWith FV.fmax agg com))
            else .ok (some (List.zipWith FV.npmax agg com))
          else if mode = 0 then
            if ignoreNaN then .ok (some (List.zipWith FV.fmin agg com))
            else .ok (some (List.zipWith FV.npmin agg com))
          else .ok (some agg)
      else .ok aggdata

/-!
DerivedVariable.checkPrerequisites (derived_variables_mm.py lines 231-253).
Verifies that every prerequisite name, after the optional varmap renaming
(skipped when the mapping is None or empty, matching Python truthiness of the
dict), occurs among the target dataset variables, and, only when a constants
dataset is supplied, that every constant name occurs among its variables.  The
boolean result is both stored in the checked flag and returned, so one Bool
models both.
-/
def varmapApply (varmap : Option (List (String × String))) (v : String) : String :=
  match varmap with
  | none => v
  | some m => if m.isEmpty then v else ((m.lookup v).getD v)

def DerivedVariable.checkPrerequisites (prerequisites constants : List String)
    (target : List String) (const : Option (List String))
    (varmap : Option (List (String × String))) : Bool :=
  (prerequisites.all (fun v => target.contains (varmapApply varmap v))) &&
  (match const with
   | none => true
   | some cs => constants.all (fun c => cs.contains c))

/-- C9: when the constants dataset argument is None, checkPrerequisites never
examines the declared constants: if every (re-mapped) prerequisite name is
present in the target dataset then the call returns True (and hence sets the
checked flag to True), for every declared constants list, empty or not. -/
theorem checkPrerequisites_const_none_ignores_constants
    (prerequisites constants : List String) (target : List String)
    (varmap : Option (List (String × String)))
    (h : ∀ v ∈ prerequisites, varmapApply varmap v ∈ target) :
    DerivedVariable.checkPrerequisites prerequisites constants target none varmap = true := by
  simp [DerivedVariable.checkPrerequisites, List.all_eq_true]
  exact fun v hv => h v hv

/-- C9 witness: a descriptor with a nonempty constants list and a constants
dataset argument of None is checked successfully from its prerequisites alone. -/
theorem checkPrerequisites_const_none_ignores_constants_witness :
    (∀ v ∈ ["RAINNC", "RAINC"],
        varmapApply none v ∈ ["RAINNC", "RAINC", "T2"]) ∧
    DerivedVariable.checkPrerequisites ["RAINNC", "RAINC"] ["XLONG", "HGT"]
      ["RAINNC", "RAINC", "T2"] none none = true :=
  ⟨by decide,
   checkPrerequisites_const_none_ignores_constants ["RAINNC", "RAINC"]
     ["XLONG", "HGT"] ["RAINNC", "RAINC", "T2"] none (by decide)⟩

/-- C3: with normalize set and a present accumulator, the default aggregation
returns the accumulator plus the elementwise sum (NaN-safe when ignoreNaN) of
the chunk along the aggregation axis, performing no division; with normalize
set and the accumulator absent, the call fails with the aggregation-state error
instead of producing a value. -/
theorem aggregateValues_default_sum_and_error (ignoreNaN : Bool)
    (com : List (List FV)) (agg : List FV) (h : 0 < npsize com) :
    DerivedVariable.aggregateValues true ignoreNaN (some com) (some agg) =
      .ok (some (List.zipWith FV.add agg
        (if ignoreNaN then npNanSum com else npSum com))) ∧
    DerivedVariable.aggregateValues true ignoreNaN (some com) none =
      .error "DerivedVariableError: the one-pass aggregation automatically normalizes" := by
  cases ignoreNaN <;> simp [DerivedVariable.aggregateValues, h]

/-- C3 witness: a concrete two-step chunk summed onto a concrete accumulator,
and the same chunk with no accumulator raising the aggregation-state error. -/
theorem aggregateValues_default_sum_and_error_witness :
    0 < npsize [[FV.val 2], [FV.val 4]] ∧
    (DerivedVariable.aggregateValues true false
        (some [[FV.val 2], [FV.val 4]]) (some [FV.val 1]) =
      .ok (some (List.zipWith FV.add [FV.val 1]
        (if false then npNanSum [[FV.val 2], [FV.val 4]]
         else npSum [[FV.val 2], [FV.val 4]]))) ∧
     DerivedVariable.aggregateValues true false
        (some [[FV.val 2], [FV.val 4]]) none =
      .error "DerivedVariableError: the one-pass aggregation automatically normalizes") :=
  ⟨by decide,
   aggregateValues_default_sum_and_error false [[FV.val 2], [FV.val 4]] [FV.val 1]
     (by decide)⟩

/-- C4 counterexample: calling the default aggregation with normalize=True, an
absent (None) accumulator and a non-empty chunk does not succeed with the
chunk mean; it raises the DerivedVariableError (the mean-returning first-chunk
branch requires normalize=False in the code, lines 293-297). -/
theorem aggregateValues_normalize_none_accumulator_raises :
    DerivedVariable.aggregateValues true false (some [[FV.val 2], [FV.val 4]]) none =
      .error "DerivedVariableError: the one-pass aggregation automatically normalizes" ∧
    DerivedVariable.aggregateValues true false (some [[FV.val 2], [FV.val 4]]) none ≠
      .ok (some (npMean [[FV.val 2], [FV.val 4]])) := by
  constructor
  · decide
  · decide

/-- C4 amended: with normalize FALSE (not true as claimed), an absent (None)
accumulator and a non-empty chunk, the default aggregation succeeds and
returns the chunk mean along the aggregation axis, NaN-safe when ignoreNaN is
set; with normalize true the same call raises the aggregation-state error. -/
theorem aggregateValues_first_chunk_mean (ignoreNaN : Bool)
    (com : List (List FV)) (h : 0 < npsize com) :
    DerivedVariable.aggregateValues false ignoreNaN (some com) none =
      .ok (some (if ignoreNaN then npNanMean com else npMean com)) ∧
    DerivedVariable.aggregateValues true ignoreNaN (some com) none =
      .error "DerivedVariableError: the one-pass aggregation automatically normalizes" := by
  cases ignoreNaN <;> simp [DerivedVariable.aggregateValues, h]

/-- C4 amended witness: a concrete non-empty chunk whose first-chunk
aggregation with normalize=False returns its mean. -/
theorem aggregateValues_first_chunk_mean_witness :
    0 < npsize [[FV.val 2], [FV.val 4]] ∧
    (DerivedVariable.aggregateValues false false (some [[FV.val 2], [FV.val 4]]) none =
      .ok (some (if false then npNanMean [[FV.val 2], [FV.val 4]]
                 else npMean [[FV.val 2], [FV.val 4]])) ∧
     DerivedVariable.aggregateValues true false (some [[FV.val 2], [FV.val 4]]) none =
      .error "DerivedVariableError: the one-pass aggregation automatically normalizes") :=
  ⟨by decide, aggregateValues_first_chunk_mean false [[FV.val 2], [FV.val 4]] (by decide)⟩

/-- C5 counterexample: an absent (None) newChunkResult is not a universal
no-op: the default (sum-type) aggregation rejects None with a TypeError
(the isinstance check on line 290) instead of returning the accumulator. -/
theorem aggregateValues_none_chunk_raises :
    DerivedVariable.aggregateValues true false none (some [FV.val 1]) =
      .error "TypeError" ∧
    DerivedVariable.aggregateValues true false none (some [FV.val 1]) ≠
      .ok (some [FV.val 1]) := by
  constructor
  · decide
  · decide

/-- C5 amended: an empty newChunkResult is a no-op on the accumulator for the
default aggregation and for the extremum aggregation, and an absent (None)
newChunkResult is a no-op for the extremum aggregation; only the default
aggregation rejects an absent chunk, with a TypeError. -/
theorem aggregateValues_empty_chunk_noop (normalize ignoreNaN : Bool)
    (mode : ℕ) (com : List (List FV)) (com1 : List FV)
    (agg : Option (List FV)) (h : npsize com = 0) (h1 : com1.length = 0) :
    DerivedVariable.aggregateValues normalize ignoreNaN (some com) agg = .ok agg ∧
    Extrema.aggregateValues mode ignoreNaN false none agg = .ok agg ∧
    Extrema.aggregateValues mode ignoreNaN false (some com1) agg = .ok agg := by
  refine ⟨?_, ?_, ?_⟩
  · simp [DerivedVariable.aggregateValues, h]
  · simp [Extrema.aggregateValues]
  · simp [Extrema.aggregateValues, h1]

/-- C5 amended witness: an empty two-dimensional chunk and an empty spatial
array leave a concrete accumulator untouched in all three cases. -/
theorem aggregateValues_empty_chunk_noop_witness :
    npsize [] = 0 ∧ List.length ([] : List FV) = 0 ∧
    (DerivedVariable.aggregateValues true false (some []) (some [FV.val 7]) =
        .ok (some [FV.val 7]) ∧
     Extrema.aggregateValues 1 false false none (some [FV.val 7]) =
        .ok (some [FV.val 7]) ∧
     Extrema.aggregateValues 1 false false (some []) (some [FV.val 7]) =
        .ok (some [FV.val 7])) :=
  ⟨by decide, by decide,
   aggregateValues_empty_chunk_noop true false 1 [] [] (some [FV.val 7])
     (by decide) (by decide)⟩

/-- Fusion of an elementwise map over a self-zip: numpy style
np.where tests recomputed from the same array combine pointwise. -/
theorem zipWith_map_self {α β γ : Type} (f : α → β → γ) (g : α → β) (l : List α) :
    List.zipWith f l (l.map g) = l.map (fun x => f x (g x)) := by
  induction l with
  | nil => rfl
  | cons h t ih => simp [ih]

/-- Two-dimensional version of zipWith_map_self. -/
theorem zipWith2_map_self {α β γ : Type} (f : α → β → γ) (g : α → β)
    (a : List (List α)) :
    List.zipWith (List.zipWith f) a (a.map (List.map g)) =
      a.map (List.map (fun x => f x (g x))) := by
  induction a with
  | nil => rfl
  | cons h t ih => simp [ih, zipWith_map_self]

/-- WetDays init (line 652): the mm/day threshold argument is converted to an
SI flux value by dividing by 86400. -/
def WetDays.threshold (t : ℚ) : ℚ := t / 86400

/-- The value transform of WetDays.computeValues (lines 674-679): with
ignoreNaN, np.where(rain > threshold, 1, 0) followed by
np.where(np.isnan(rain), NaN, previous); without, the boolean array
rain > threshold (stored as 1/0, NaN comparing False). -/
def WetDays.values (threshold : ℚ) (ignoreNaN : Bool)
    (rain : List (List FV)) : List (List FV) :=
  if ignoreNaN then
    let outdata := rain.map (List.map
      (fun x => if x.fgtQ threshold then FV.val 1 else FV.val 0))
    List.zipWith (List.zipWith (fun x o => if x.isnan then FV.nan else o))
      rain outdata
  else
    rain.map (List.map (fun x => if x.fgtQ threshold then FV.val 1 else FV.val 0))

/-- WetDays.computeValues (lines 662-683): the stored-delta consistency check
against the scratch store (key WETDAYS_DELTA), then the indicator values.  The
scratch slot is modelled as: none when no tmp dict is supplied, some none when
the dict has no stored delta yet, some (some d) when d is stored. -/
def WetDays.computeValues (threshold : ℚ) (ignoreNaN : Bool) (delta : ℚ)
    (tmp : Option (Option ℚ)) (rain : List (List FV)) :
    Except String (List (List FV) × Option (Option ℚ)) :=
  match tmp with
  | some (some d0) =>
      if delta ≠ d0 then
        .error "NotImplementedError: output interval is assumed to be constant"
      else .ok (WetDays.values threshold ignoreNaN rain, some (some d0))
  | some none => .ok (WetDays.values threshold ignoreNaN rain, some (some delta))
  | none => .ok (WetDays.values threshold ignoreNaN rain, none)

/-- Pointwise form of the wet-day indicator, for stating the claim: 1 iff the
input strictly exceeds the converted threshold; NaN input gives NaN when
ignoreNaN and the false-branch value 0 otherwise. -/
def wetDayIndicatorPointwise (thr : ℚ) (ignoreNaN : Bool) : FV → FV
  | FV.nan => if ignoreNaN then FV.nan else FV.val 0
  | FV.val v => if v > thr then FV.val 1 else FV.val 0

/-- The WetDays value transform agrees cell by cell with the pointwise
indicator form. -/
theorem wetValues_eq_pointwise (thr : ℚ) (ign : Bool) (rain : List (List FV)) :
    WetDays.values thr ign rain =
      rain.map (List.map (wetDayIndicatorPointwise thr ign)) := by
  cases ign with
  | true =>
    simp only [WetDays.values, if_pos rfl]
    rw [zipWith2_map_self]
    apply List.map_congr_left
    intro r _
    apply List.map_congr_left
    intro x _
    cases x <;> simp [FV.isnan, FV.fgtQ, wetDayIndicatorPointwise]
  | false =>
    simp only [WetDays.values]
    rw [if_neg (by simp)]
    apply List.map_congr_left
    intro r _
    apply List.map_congr_left
    intro x _
    cases x <;> simp [FV.fgtQ, wetDayIndicatorPointwise]

/-- C7: for the wet-day indicator with threshold t mm/day, computeValues maps
every cell by the pointwise indicator against the converted threshold t/86400:
a cell exactly equal to the converted threshold yields 0, any cell strictly
above it (one ULP or more) yields 1, a NaN cell yields NaN when ignoreNaN and
the false-branch value 0 otherwise. -/
theorem wetDays_indicator_strict_threshold (t : ℚ) (ignoreNaN : Bool) (delta : ℚ)
    (rain : List (List FV)) :
    WetDays.computeValues (WetDays.threshold t) ignoreNaN delta (some none) rain =
      .ok (rain.map (List.map (wetDayIndicatorPointwise (t / 86400) ignoreNaN)),
           some (some delta)) ∧
    wetDayIndicatorPointwise (t / 86400) ignoreNaN (FV.val (t / 86400)) = FV.val 0 ∧
    (∀ ε : ℚ, 0 < ε →
      wetDayIndicatorPointwise (t / 86400) ignoreNaN (FV.val (t / 86400 + ε)) = FV.val 1) ∧
    wetDayIndicatorPointwise (t / 86400) true FV.nan = FV.nan ∧
    wetDayIndicatorPointwise (t / 86400) false FV.nan = FV.val 0 := by
  refine ⟨?_, ?_, ?_, rfl, rfl⟩
  · simp [WetDays.computeValues, WetDays.threshold, wetValues_eq_pointwise]
  · simp [wetDayIndicatorPointwise]
  · intro ε hε
    have hlt : t / 86400 < t / 86400 + ε := by linarith
    simp [wetDayIndicatorPointwise, hlt]

/-- C7 witness: threshold 1 mm/day, a chunk holding the exact converted
threshold, a strictly larger value and a NaN, in NaN-safe mode. -/
theorem wetDays_indicator_strict_threshold_witness :
    WetDays.computeValues (WetDays.threshold 1) true 86400 (some none)
        [[FV.val (1 / 86400), FV.val (1 / 86400 + 1), FV.nan]] =
      .ok ([[FV.val (1 / 86400), FV.val (1 / 86400 + 1), FV.nan]].map
             (List.map (wetDayIndicatorPointwise (1 / 86400) true)),
           some (some 86400)) ∧
    (0 : ℚ) < 1 ∧
    wetDayIndicatorPointwise (1 / 86400) true (FV.val (1 / 86400 + 1)) = FV.val 1 :=
  ⟨(wetDays_indicator_strict_threshold 1 true 86400
      [[FV.val (1 / 86400), FV.val (1 / 86400 + 1), FV.nan]]).1,
   by norm_num,
   (wetDays_indicator_strict_threshold 1 true 86400
      [[FV.val (1 / 86400), FV.val (1 / 86400 + 1), FV.nan]]).2.2.1 1 (by norm_num)⟩

/-- The np.max reduction over all elements of a two-dimensional array. -/
def npmax2 (a : List (List ℚ)) : ℚ :=
  match a.foldr (· ++ ·) [] with
  | [] => 0
  | h :: t => t.foldl max h

/-- Elementwise combination of two two-dimensional arrays. -/
def zip2Q (f : ℚ → ℚ → ℚ) : List (List ℚ) → List (List ℚ) → List (List ℚ) :=
  List.zipWith (List.zipWith f)

/-- LiquidPrecipSR.computeValues (lines 487-498): RAIN scaled by the liquid
fraction derived from the solid-to-liquid ratio SR, halving the ratio when the
chunk maximum of SR exceeds 1. -/
def LiquidPrecipSR.computeValues (RAIN SR : List (List ℚ)) : List (List ℚ) :=
  if npmax2 SR > 1 then zip2Q (fun r s => r * (1 - s / 2)) RAIN SR
  else zip2Q (fun r s => r * (1 - s)) RAIN SR

/-- SolidPrecipSR.computeValues (lines 517-524): RAIN times SR, halved in
place when the chunk maximum of SR exceeds 1. -/
def SolidPrecipSR.computeValues (RAIN SR : List (List ℚ)) : List (List ℚ) :=
  let outdata := zip2Q (fun r s => r * s) RAIN SR
  if npmax2 SR > 1 then outdata.map (List.map (fun x => x / 2)) else outdata

/-- One-dimensional splitting lemma: two pointwise transforms of the same two
rows sum back to the first row when the transforms are complementary. -/
theorem zipWith_add_split (f g : ℚ → ℚ → ℚ) (hyp : ∀ r s, f r s + g r s = r) :
    ∀ (a b : List ℚ), a.length = b.length →
      List.zipWith (· + ·) (List.zipWith f a b) (List.zipWith g a b) = a := by
  intro a
  induction a with
  | nil => intro b _; rfl
  | cons x xs ih =>
    intro b hb
    cases b with
    | nil => simp at hb
    | cons y ys =>
      have hb2 : xs.length = ys.length := by simpa using hb
      simp only [List.zipWith_cons_cons, List.cons.injEq]
      exact ⟨hyp x y, ih ys hb2⟩

/-- Two-dimensional splitting lemma built from zipWith_add_split. -/
theorem zip2Q_add_split (f g : ℚ → ℚ → ℚ) (hyp : ∀ r s, f r s + g r s = r) :
    ∀ (a b : List (List ℚ)), a.map List.length = b.map List.length →
      zip2Q (· + ·) (zip2Q f a b) (zip2Q g a b) = a := by
  intro a
  induction a with
  | nil => intro b _; rfl
  | cons r rs ih =>
    intro b hb
    cases b with
    | nil => simp at hb
    | cons s ss =>
      simp only [List.map_cons, List.cons.injEq] at hb
      simp only [zip2Q, List.zipWith_cons_cons, List.cons.injEq]
      exact ⟨zipWith_add_split f g hyp r s hb.1, ih ss hb.2⟩

/-- Fusion of an elementwise map with an elementwise zip. -/
theorem map_zip2Q (h : ℚ → ℚ) (f : ℚ → ℚ → ℚ) (a b : List (List ℚ)) :
    (zip2Q f a b).map (List.map h) = zip2Q (fun x y => h (f x y)) a b := by
  induction a generalizing b with
  | nil => rfl
  | cons r rs ih =>
    cases b with
    | nil => rfl
    | cons s ss => simp [zip2Q, List.map_zipWith, ih]

/-- C10: for every chunk with RAIN and SR of matching shape, the liquid and
solid precipitation outputs sum elementwise back to RAIN exactly, in both
branches of the ratio-range test (max SR above 1 or not). -/
theorem liquid_plus_solid_precip_eq_rain (RAIN SR : List (List ℚ))
    (h : RAIN.map List.length = SR.map List.length) :
    zip2Q (· + ·) (LiquidPrecipSR.computeValues RAIN SR)
        (SolidPrecipSR.computeValues RAIN SR) = RAIN := by
  by_cases hm : npmax2 SR > 1
  · simp only [LiquidPrecipSR.computeValues, SolidPrecipSR.computeValues,
      if_pos hm, map_zip2Q]
    exact zip2Q_add_split _ _ (fun r s => by ring) RAIN SR h
  · simp only [LiquidPrecipSR.computeValues, SolidPrecipSR.computeValues,
      if_neg hm]
    exact zip2Q_add_split _ _ (fun r s => by ring) RAIN SR h

/-- C10 witness: a concrete chunk exercising the max SR above 1 branch. -/
theorem liquid_plus_solid_precip_eq_rain_witness :
    List.map List.length [[(3 : ℚ), 5], [7, 11]] =
      List.map List.length [[(0 : ℚ), 2], [1, 1 / 2]] ∧
    zip2Q (· + ·)
        (LiquidPrecipSR.computeValues [[(3 : ℚ), 5], [7, 11]] [[(0 : ℚ), 2], [1, 1 / 2]])
        (SolidPrecipSR.computeValues [[(3 : ℚ), 5], [7, 11]] [[(0 : ℚ), 2], [1, 1 / 2]]) =
      [[(3 : ℚ), 5], [7, 11]] :=
  ⟨by decide,
   liquid_plus_solid_precip_eq_rain [[(3 : ℚ), 5], [7, 11]] [[(0 : ℚ), 2], [1, 1 / 2]]
     (by decide)⟩

/-- The np.sum reduction along axis 0 of a NaN-free (rational) array. -/
def npSumQ : List (List ℚ) → List ℚ
  | [] => []
  | [r] => r
  | r :: rs => List.zipWith (· + ·) r (npSumQ rs)

/-- The np.mean reduction along axis 0 of a NaN-free (rational) array. -/
def npMeanQ (a : List (List ℚ)) : List ℚ :=
  (npSumQ a).map (fun x => x / (a.length : ℚ))

/-- The np.max reduction along axis 0 of a NaN-free (rational) array. -/
def npAmax : List (List ℚ) → List ℚ
  | [] => []
  | [r] => r
  | r :: rs => List.zipWith max r (npAmax rs)

/-- The np.min reduction along axis 0 of a NaN-free (rational) array. -/
def npAmin : List (List ℚ) → List ℚ
  | [] => []
  | [r] => r
  | r :: rs => List.zipWith min r (npAmin rs)

/-- Extrema.computeValues (lines 1383-1395) on NaN-free data: the maximum
(mode 1) or minimum (mode 0) along the aggregation axis. -/
def Extrema.computeValues (mode : ℕ) (data : List (List ℚ)) : List ℚ :=
  if mode = 1 then npAmax data
  else if mode = 0 then npAmin data
  else []

/-- Splitting of the truncated data into nint consecutive blocks of ilen time
steps each: the reshape((nint, ilen) + pape) of line 1554. -/
def chunkRows : ℕ → ℕ → List (List ℚ) → List (List (List ℚ))
  | 0, _, _ => []
  | n + 1, k, xs => xs.take k :: chunkRows n k (xs.drop k)

/-!
MeanExtrema.computeValues (derived_variables_mm.py lines 1532-1568), on
NaN-free data, for aggregation axis 0.  The call returns the emitted extremum
of block means (none when no full block is available) together with the array
written back to the scratch store under the MEX_ key.  The let shadowing of
data below mirrors lines 1552-1553 of the source exactly: data is truncated to
the first ui rows BEFORE rest is sliced off at ui, so rest is always empty in
the nint > 0 branch.  The interval and delta are in seconds; ilen is
int(interval / delta) and nint is int(lt / ilen); integer truncation of the
nonnegative quotients arising here is floor (a zero ilen would make the Python
int(lt / ilen) raise ZeroDivisionError).
-/
def MeanExtrema.computeValues (mode : ℕ) (interval delta : ℚ)
    (tmpdata : Option (List (List ℚ))) (indata : List (List ℚ)) :
    Except String (Option (List ℚ) × List (List ℚ)) :=
  if delta = 0 then .error "ValueError: no interval to average over"
  else
    let data := match tmpdata with
      | some old => old ++ indata
      | none => indata
    let lt := data.length
    let ilen := ⌊interval / delta⌋₊
    if ilen = 0 then .error "ZeroDivisionError"
    else
      let nint := lt / ilen
      if 0 < nint then
        let ui := ilen * nint
        let data := data.take ui
        let rest := data.drop ui
        let meandata := (chunkRows nint ilen data).map npMeanQ
        let outdata := Extrema.computeValues mode meandata
        .ok (some outdata, rest)
      else
        .ok (none, data)

/-- C1: evaluation of the code at the claim scenario (5-day averaging
interval, daily samples, one grid point with values 1..7 then 8..10).  The
first call does emit the true 5-point block mean 3, but it buffers an EMPTY
leftover instead of the 2 leftover samples, because line 1552 truncates data
before line 1553 slices the rest; the second call therefore sees only 3
samples and returns the no-result sentinel instead of completing a second
block, whose mean over the carried-over samples 6,7 and the new sample 8
would have been 7. -/
theorem meanExtrema_leftover_dropped_at_scenario :
    MeanExtrema.computeValues 1 432000 86400 none
        [[1], [2], [3], [4], [5], [6], [7]] =
      .ok (some [3], ([] : List (List ℚ))) ∧
    MeanExtrema.computeValues 1 432000 86400 (some [])
        [[8], [9], [10]] =
      .ok (none, [[8], [9], [10]]) ∧
    npMeanQ [[6], [7], [8]] = [7] := by
  refine ⟨?_, ?_, ?_⟩
  · norm_num [MeanExtrema.computeValues, Extrema.computeValues, chunkRows,
      npMeanQ, npSumQ, npAmax]
  · norm_num [MeanExtrema.computeValues]
  · norm_num [npMeanQ, npSumQ]

/-!
ConsecutiveExtrema.computeValues (derived_variables_mm.py lines 1465-1512),
for aggregation axis 0.  The scratch entries are passed explicitly: coxDelta
models tmp[COX_DELTA] (none when absent) and counter models tmp[COX_name]
(none when absent, initialized to zeros of the spatial shape).  period0 models
the mutable self.period attribute (0 until first set, then delta / 86400).
The result record carries the returned maxdata, the updated period attribute,
the stored delta and the carried-over counter.  A masked point of the
ignoreNaN branch (np.ma.masked_where, line 1507) is modelled as NaN.
-/
structure ConsecResult where
  maxdata : List FV
  period : ℚ
  coxDelta : ℚ
  counter : List ℕ
deriving DecidableEq, Repr

/-- One step of the march along the aggregation axis (lines 1491-1502):
detect exceedance, extract the streak lengths being reset, update the running
maxima, reset and increment the counters.  NaN compares False, hence counts
as non-exceedance (comment on line 1495). -/
def ConsecutiveExtrema.step (thresmode : ℕ) (threshold period : ℚ)
    (st : List ℚ × List ℕ) (row : List FV) : List ℚ × List ℕ :=
  let xmask := row.map (fun x =>
    if thresmode = 1 then x.fgtQ threshold
    else if thresmode = 0 then x.fltQ threshold
    else false)
  let xnew := List.zipWith (fun m c => if m then 0 else (c : ℚ) * period) xmask st.2
  let maxdata := List.zipWith max st.1 xnew
  let xcnt := List.zipWith (fun m c => if m then c + 1 else 0) xmask st.2
  (maxdata, xcnt)

/-- The body of ConsecutiveExtrema.computeValues after the interval check:
period bookkeeping (line 1476), counter initialization or carry-over
(lines 1486-1487), the march, the write-back of the counter and the
ignoreNaN masking (lines 1503-1507). -/
def ConsecutiveExtrema.march (thresmode : ℕ) (threshold : ℚ)
    (ignoreNaN : Bool) (period0 : ℚ) (delta : ℚ)
    (counter : Option (List ℕ)) (indata : List (List FV)) : ConsecResult :=
  let period := if period0 = 0 then delta / 86400 else period0
  let xshape := (indata.headD []).length
  let xcnt0 := counter.getD (List.replicate xshape 0)
  let st := indata.foldl (ConsecutiveExtrema.step thresmode threshold period)
    (List.replicate xshape 0, xcnt0)
  let nanmask := indata.foldl
    (fun acc row => List.zipWith (fun b x => b || x.isnan) acc row)
    (List.replicate xshape false)
  let maxdata :=
    if ignoreNaN then
      List.zipWith (fun b m => if b then FV.nan else FV.val m) nanmask st.1
    else st.1.map FV.val
  ⟨maxdata, period, delta, st.2⟩

def ConsecutiveExtrema.computeValues (thresmode : ℕ) (threshold : ℚ)
    (ignoreNaN : Bool) (period0 : ℚ) (delta : ℚ) (coxDelta : Option ℚ)
    (counter : Option (List ℕ)) (indata : List (List FV)) :
    Except String ConsecResult :=
  match coxDelta with
  | some d0 =>
    if delta ≠ d0 then
      .error "NotImplementedError: consecutive extrema need a constant output interval"
    else .ok (ConsecutiveExtrema.march thresmode threshold ignoreNaN period0
                delta counter indata)
  | none =>
    .ok (ConsecutiveExtrema.march thresmode threshold ignoreNaN period0
           delta counter indata)

/-- C2 counterexample: with chunk 1 holding exactly the 3 daily above-threshold
steps and chunk 2 exactly the 2 further above-threshold steps of the claim
scenario (threshold 0, values 1, one grid point), the streak never ends inside
either chunk, so both calls report a chunk maximum of 0 days (a streak length
is only extracted at the first non-exceeding step, line 1497), and the
aggregated maximum after chunk 2 is 0 days, not the claimed 5. -/
theorem consecutiveExtrema_pure_exceedance_chunks_report_zero :
    ConsecutiveExtrema.computeValues 1 0 false 0 86400 none none
        [[FV.val 1], [FV.val 1], [FV.val 1]] =
      .ok ⟨[FV.val 0], 1, 86400, [3]⟩ ∧
    ConsecutiveExtrema.computeValues 1 0 false 1 86400 (some 86400) (some [3])
        [[FV.val 1], [FV.val 1]] =
      .ok ⟨[FV.val 0], 1, 86400, [5]⟩ ∧
    Extrema.aggregateValues 1 false false (some [FV.val 0]) none =
      .ok (some [FV.val 0]) ∧
    Extrema.aggregateValues 1 false false (some [FV.val 0]) (some [FV.val 0]) =
      .ok (some [FV.val 0]) ∧
    (Except.ok (some [FV.val 0]) : Except String (Option (List FV))) ≠
      .ok (some [FV.val 5]) := by
  refine ⟨?_, ?_, ?_, ?_, ?_⟩
  · norm_num [ConsecutiveExtrema.computeValues, ConsecutiveExtrema.march,
      ConsecutiveExtrema.step, FV.fgtQ, FV.isnan]
  · norm_num [ConsecutiveExtrema.computeValues, ConsecutiveExtrema.march,
      ConsecutiveExtrema.step, FV.fgtQ, FV.isnan]
  · norm_num [Extrema.aggregateValues]
  · norm_num [Extrema.aggregateValues, FV.npmax]
  · norm_num

/-- C2 amended: a cross-chunk exceedance streak is reported with its full
spanning length once it terminates: for any threshold and any daily values
with 3 above-threshold steps in chunk 1 and 2 more in chunk 2 followed there
by a non-exceeding step, the live counter carried over in scratch makes the
second call report 5 days, and the aggregated maximum after chunk 2 is 5 days,
not 2 or 3. -/
theorem consecutiveExtrema_carryover_spanning_streak
    (thr a b c d e y : ℚ)
    (ha : a > thr) (hb : b > thr) (hc : c > thr) (hd : d > thr) (he : e > thr)
    (hy : ¬ (y > thr)) :
    ConsecutiveExtrema.computeValues 1 thr false 0 86400 none none
        [[FV.val a], [FV.val b], [FV.val c]] =
      .ok ⟨[FV.val 0], 1, 86400, [3]⟩ ∧
    ConsecutiveExtrema.computeValues 1 thr false 1 86400 (some 86400) (some [3])
        [[FV.val d], [FV.val e], [FV.val y]] =
      .ok ⟨[FV.val 5], 1, 86400, [0]⟩ ∧
    Extrema.aggregateValues 1 false false (some [FV.val 0]) none =
      .ok (some [FV.val 0]) ∧
    Extrema.aggregateValues 1 false false (some [FV.val 5]) (some [FV.val 0]) =
      .ok (some [FV.val 5]) := by
  refine ⟨?_, ?_, ?_, ?_⟩
  · norm_num [ConsecutiveExtrema.computeValues, ConsecutiveExtrema.march,
      ConsecutiveExtrema.step, FV.fgtQ, FV.isnan, ha, hb, hc]
  · norm_num [ConsecutiveExtrema.computeValues, ConsecutiveExtrema.march,
      ConsecutiveExtrema.step, FV.fgtQ, FV.isnan, hd, he, hy]
  · norm_num [Extrema.aggregateValues]
  · norm_num [Extrema.aggregateValues, FV.npmax]

/-- C2 amended witness: threshold 0, values 1 above and -1 below. -/
theorem consecutiveExtrema_carryover_spanning_streak_witness :
    ((1 : ℚ) > 0 ∧ ¬ ((-1 : ℚ) > 0)) ∧
    (ConsecutiveExtrema.computeValues 1 0 false 0 86400 none none
        [[FV.val 1], [FV.val 1], [FV.val 1]] =
      .ok ⟨[FV.val 0], 1, 86400, [3]⟩ ∧
    ConsecutiveExtrema.computeValues 1 0 false 1 86400 (some 86400) (some [3])
        [[FV.val 1], [FV.val 1], [FV.val (-1)]] =
      .ok ⟨[FV.val 5], 1, 86400, [0]⟩ ∧
    Extrema.aggregateValues 1 false false (some [FV.val 0]) none =
      .ok (some [FV.val 0]) ∧
    Extrema.aggregateValues 1 false false (some [FV.val 5]) (some [FV.val 0]) =
      .ok (some [FV.val 5])) :=
  ⟨⟨by norm_num, by norm_num⟩,
   consecutiveExtrema_carryover_spanning_streak 0 1 1 1 1 1 (-1)
     (by norm_num) (by norm_num) (by norm_num) (by norm_num) (by norm_num)
     (by norm_num)⟩


/-!
pressureIntegral (derived_variables_mm.py lines 143-178).  The 4D fields var
and T are modelled as (time, level, space) with the two horizontal axes
flattened into one spatial index, every operation being elementwise in them;
p is the 2D (time, level) pressure field.  The shape asserts of lines 147-148
(with the rectangularity that the ndarray type guarantees) become an explicit
boolean check; the monotonicity assert of line 154 inspects the first time
step row p[0,:], which is also the quadrature axis.  np.nan_to_num zeroes the
NaNs of var and T (line 164); the integrand RMg, var, T, p product is placed
at interior levels of an array that keeps zeros at the two added boundary
levels (lines 150-167), the extended axis being 1e5 Pa, p[0,:], 0 Pa, negated
(lines 156-159); scipy simps integrates along the level axis with the
even-first rule (line 172): composite Simpson segments over consecutive point
pairs, with a trapezoid on the last interval when the number of samples is
even.
-/
def nanToNum3 (x : List (List (List FV))) : List (List (List ℚ)) :=
  x.map (List.map (List.map FV.toQ))

def strictDecrQ (xs : List ℚ) : Bool :=
  (List.zipWith (fun a b => a - b) xs.tail xs).all (fun d => decide (d < 0))

def simpsSegment (x0 x1 x2 y0 y1 y2 : ℚ) : ℚ :=
  let h0 := x1 - x0
  let h1 := x2 - x1
  (h0 + h1) / 6 *
    (y0 * (2 - h1 / h0) + y1 * ((h0 + h1) ^ 2 / (h0 * h1)) + y2 * (2 - h0 / h1))

def simpsPairs : List ℚ → List ℚ → ℚ
  | x0 :: x1 :: x2 :: xs, y0 :: y1 :: y2 :: ys =>
      simpsSegment x0 x1 x2 y0 y1 y2 + simpsPairs (x2 :: xs) (y2 :: ys)
  | _, _ => 0

def trapLast (xs ys : List ℚ) : ℚ :=
  (xs.getLastD 0 - xs.dropLast.getLastD 0) *
    (ys.getLastD 0 + ys.dropLast.getLastD 0) / 2

def simpsQ (xs ys : List ℚ) : ℚ :=
  if ys.length % 2 = 1 then simpsPairs xs ys
  else simpsPairs xs.dropLast ys.dropLast + trapLast xs ys

/-- The first-time-step pressure row p[0,:], used for the monotonicity assert
and as the quadrature axis. -/
def prow0 (p : List (List ℚ)) : List ℚ := p.headD []

/-- The flattened spatial extent of the 4D input fields. -/
def piNS (T : List (List (List FV))) : ℕ := ((T.headD []).headD []).length

def piShapeOK (var T : List (List (List FV))) (p : List (List ℚ)) : Bool :=
  let nl := (prow0 p).length
  let ns := piNS T
  var.length == T.length && T.length == p.length &&
  p.all (fun r => r.length == nl) &&
  T.all (fun m => m.length == nl && m.all (fun r => r.length == ns)) &&
  var.all (fun m => m.length == nl && m.all (fun r => r.length == ns))

def weightedFlux (RMg : ℚ) (ns : ℕ) (prow : List ℚ)
    (vt : List (List ℚ) × List (List ℚ)) : List (List ℚ) :=
  List.replicate ns (0 : ℚ) ::
    (List.zipWith (fun pl vtl =>
        List.zipWith (fun v tv => RMg * v * tv / pl) vtl.1 vtl.2)
      prow (vt.1.zip vt.2)) ++ [List.replicate ns (0 : ℚ)]

def pressureIntegral (RMg : ℚ) (var T : List (List (List FV)))
    (p : List (List ℚ)) : Except String (List (List ℚ)) :=
  if ¬ piShapeOK var T p then .error "AssertionError: array shapes do not match"
  else if ¬ strictDecrQ (prow0 p) then
    .error "DataOrderError: the pressure axis has to decrease monotonically"
  else
    let paxNeg := (((100000 : ℚ) :: prow0 p ++ [0]).map (fun x => -x))
    let tmpdata := List.zipWith (weightedFlux RMg (piNS T)) p
      ((nanToNum3 var).zip (nanToNum3 T))
    .ok (tmpdata.map (fun m => m.transpose.map (simpsQ paxNeg)))

def nanZero3 (x : List (List (List FV))) : List (List (List FV)) :=
  x.map (List.map (List.map (fun v => FV.val v.toQ)))

theorem piNS_nanZero3 (T : List (List (List FV))) : piNS (nanZero3 T) = piNS T := by
  cases T with
  | nil => simp [piNS, nanZero3]
  | cons m ms =>
    cases m with
    | nil => simp [piNS, nanZero3]
    | cons r rs => simp [piNS, nanZero3]

theorem piShapeOK_nanZero3 (var T : List (List (List FV))) (p : List (List ℚ)) :
    piShapeOK (nanZero3 var) (nanZero3 T) p = piShapeOK var T p := by
  unfold piShapeOK
  rw [piNS_nanZero3]
  simp [nanZero3, List.all_map, Function.comp_def, List.length_map]

theorem nanToNum3_nanZero3 (x : List (List (List FV))) :
    nanToNum3 (nanZero3 x) = nanToNum3 x := by
  simp [nanToNum3, nanZero3, Function.comp, FV.toQ]

theorem pressureIntegral_order_nan_boundary
    (RMg : ℚ) (var T : List (List (List FV))) (p : List (List ℚ))
    (hs : piShapeOK var T p = true) :
    (strictDecrQ (prow0 p) = false →
      pressureIntegral RMg var T p =
        .error "DataOrderError: the pressure axis has to decrease monotonically") ∧
    (strictDecrQ (prow0 p) = true →
      pressureIntegral RMg var T p =
        .ok ((List.zipWith (weightedFlux RMg (piNS T)) p
              ((nanToNum3 var).zip (nanToNum3 T))).map
            (fun m => m.transpose.map
              (simpsQ (((100000 : ℚ) :: prow0 p ++ [0]).map (fun x => -x)))))) ∧
    pressureIntegral RMg var T p =
      pressureIntegral RMg (nanZero3 var) (nanZero3 T) p := by
  refine ⟨?_, ?_, ?_⟩
  · intro hdec
    simp [pressureIntegral, hs, hdec]
  · intro hdec
    simp [pressureIntegral, hs, hdec]
  · simp [pressureIntegral, hs, piShapeOK_nanZero3, nanToNum3_nanZero3, piNS_nanZero3]

/-- C6 witness: one time step, three pressure levels 300,200,100 (strictly
decreasing), one spatial point, NaNs in both the integrand and the
temperature field; the shape check holds and the theorem applies, here
instantiated on its NaN-replacement conjunct. -/
theorem pressureIntegral_order_nan_boundary_witness :
    piShapeOK [[[FV.val 1], [FV.nan], [FV.val 2]]]
      [[[FV.val 1], [FV.val 1], [FV.nan]]] [[300, 200, 100]] = true ∧
    pressureIntegral 1 [[[FV.val 1], [FV.nan], [FV.val 2]]]
        [[[FV.val 1], [FV.val 1], [FV.nan]]] [[300, 200, 100]] =
      pressureIntegral 1 (nanZero3 [[[FV.val 1], [FV.nan], [FV.val 2]]])
        (nanZero3 [[[FV.val 1], [FV.val 1], [FV.nan]]]) [[300, 200, 100]] :=
  ⟨by decide,
   (pressureIntegral_order_nan_boundary 1 [[[FV.val 1], [FV.nan], [FV.val 2]]]
      [[[FV.val 1], [FV.val 1], [FV.nan]]] [[300, 200, 100]] (by decide)).2.2⟩


/-!
Machinery for C8: commutation of the linear derived variables with time
averaging.  The generic central-difference scheme below embeds ctrDiff
(derived_variables_mm.py lines 110-141) over an abstract element type, so that
the same definition instantiates to the axis-0 scheme on one-dimensional
slices (elements are numbers) and on two-dimensional slices (elements are
whole rows, matching the numpy slice arithmetic after rollaxis).
-/

section generic
variable {α : Type}

/-- np.diff along axis 0: out i = a (i+1) - a i, one element shorter. -/
def npdiffG (sub : α → α → α) (xs : List α) : List α :=
  List.zipWith sub xs.tail xs

/-- The slice update out 0 .. n-2 += out 1 .. n-1 of ctrDiff (line 129):
every element becomes the sum with its successor, the last stays. -/
def pairAddG (add : α → α → α) : List α → List α
  | [] => []
  | [x] => [x]
  | x :: y :: rest => add x y :: pairAddG add (y :: rest)

/-- Division of the interior by the doubled grid spacing and of the final
boundary element by the plain spacing (lines 133-137, tail part). -/
def divMidG (divb div2 : α → α) : List α → List α
  | [] => []
  | [x] => [divb x]
  | x :: y :: rest => div2 x :: divMidG divb div2 (y :: rest)

/-- Division step of ctrDiff: first and last element by divb, interior by
div2 (lines 133-137). -/
def divEndsG (divb div2 : α → α) : List α → List α
  | [] => []
  | [x] => [divb x]
  | x :: y :: rest => divb x :: divMidG divb div2 (y :: rest)

/-- The axis-0 central-difference scheme of ctrDiff (lines 123-137) over an
abstract element type: allocate zeros, write the forward differences into
positions 1..n-1, add the successor slice, normalize interior and boundary. -/
def ctrDiffG (zero : α) (add sub : α → α → α) (divb div2 : α → α)
    (xs : List α) : List α :=
  match xs with
  | [] => []
  | _ => divEndsG divb div2 (pairAddG add (zero :: npdiffG sub xs))

theorem zipWith_interchangeG (f g : α → α → α)
    (law : ∀ a b c d, f (g a b) (g c d) = g (f a c) (f b d)) :
    ∀ (as bs cs ds : List α),
      List.zipWith f (List.zipWith g as bs) (List.zipWith g cs ds) =
        List.zipWith g (List.zipWith f as cs) (List.zipWith f bs ds) := by
  intro as
  induction as with
  | nil => intro bs cs ds; cases bs <;> cases cs <;> cases ds <;> rfl
  | cons a as ih =>
    intro bs cs ds
    cases bs <;> cases cs <;> cases ds <;> simp [ih, law]

theorem tail_zipWith (f : α → α → α) (xs ys : List α) :
    (List.zipWith f xs ys).tail = List.zipWith f xs.tail ys.tail := by
  cases xs <;> cases ys <;> simp

theorem npdiffG_zip (add sub : α → α → α)
    (law : ∀ a b c d, sub (add a b) (add c d) = add (sub a c) (sub b d))
    (xs ys : List α) :
    npdiffG sub (List.zipWith add xs ys) =
      List.zipWith add (npdiffG sub xs) (npdiffG sub ys) := by
  unfold npdiffG
  rw [tail_zipWith]
  exact zipWith_interchangeG sub add law xs.tail ys.tail xs ys

theorem pairAddG_zip (add : α → α → α)
    (law : ∀ a b c d, add (add a b) (add c d) = add (add a c) (add b d)) :
    ∀ (xs ys : List α), xs.length = ys.length →
      pairAddG add (List.zipWith add xs ys) =
        List.zipWith add (pairAddG add xs) (pairAddG add ys) := by
  intro xs
  induction xs with
  | nil => intro ys h; cases ys <;> rfl
  | cons x xs ih =>
    intro ys h
    cases ys with
    | nil => simp at h
    | cons y ys =>
      have h2 : xs.length = ys.length := by simpa using h
      cases xs with
      | nil =>
        cases ys with
        | nil => rfl
        | cons y2 ys2 => simp at h2
      | cons x2 xs2 =>
        cases ys with
        | nil => simp at h2
        | cons y2 ys2 =>
          simp only [List.zipWith_cons_cons, pairAddG]
          rw [List.cons.injEq]
          exact ⟨law x y x2 y2, ih (y2 :: ys2) h2⟩

theorem divMidG_zip (add : α → α → α) (divb div2 : α → α)
    (hb : ∀ a b, divb (add a b) = add (divb a) (divb b))
    (h2 : ∀ a b, div2 (add a b) = add (div2 a) (div2 b)) :
    ∀ (xs ys : List α), xs.length = ys.length →
      divMidG divb div2 (List.zipWith add xs ys) =
        List.zipWith add (divMidG divb div2 xs) (divMidG divb div2 ys) := by
  intro xs
  induction xs with
  | nil => intro ys h; cases ys <;> rfl
  | cons x xs ih =>
    intro ys h
    cases ys with
    | nil => simp at h
    | cons y ys =>
      have hlen : xs.length = ys.length := by simpa using h
      cases xs with
      | nil =>
        cases ys with
        | nil => simp [divMidG, hb]
        | cons y2 ys2 => simp at hlen
      | cons x2 xs2 =>
        cases ys with
        | nil => simp at hlen
        | cons y2 ys2 =>
          simp only [List.zipWith_cons_cons, divMidG]
          rw [List.cons.injEq]
          exact ⟨h2 x y, ih (y2 :: ys2) hlen⟩

theorem divEndsG_zip (add : α → α → α) (divb div2 : α → α)
    (hb : ∀ a b, divb (add a b) = add (divb a) (divb b))
    (h2 : ∀ a b, div2 (add a b) = add (div2 a) (div2 b)) :
    ∀ (xs ys : List α), xs.length = ys.length →
      divEndsG divb div2 (List.zipWith add xs ys) =
        List.zipWith add (divEndsG divb div2 xs) (divEndsG divb div2 ys) := by
  intro xs ys h
  cases xs with
  | nil => cases ys <;> rfl
  | cons x xs =>
    cases ys with
    | nil => simp at h
    | cons y ys =>
      have hlen : xs.length = ys.length := by simpa using h
      cases xs with
      | nil =>
        cases ys with
        | nil => simp [divEndsG, hb]
        | cons y2 ys2 => simp at hlen
      | cons x2 xs2 =>
        cases ys with
        | nil => simp at hlen
        | cons y2 ys2 =>
          simp only [List.zipWith_cons_cons, divEndsG]
          rw [List.cons.injEq]
          refine ⟨hb x y, divMidG_zip add divb div2 hb h2 (x2 :: xs2) (y2 :: ys2) hlen⟩

theorem pairAddG_length (add : α → α → α) :
    ∀ (xs : List α), (pairAddG add xs).length = xs.length := by
  intro xs
  induction xs with
  | nil => rfl
  | cons x xs ih =>
    cases xs with
    | nil => rfl
    | cons y rest => simpa [pairAddG] using ih

theorem ctrDiffG_zip (zero : α) (add sub : α → α → α) (divb div2 : α → α)
    (hzero : add zero zero = zero)
    (lawsub : ∀ a b c d, sub (add a b) (add c d) = add (sub a c) (sub b d))
    (lawadd : ∀ a b c d, add (add a b) (add c d) = add (add a c) (add b d))
    (hb : ∀ a b, divb (add a b) = add (divb a) (divb b))
    (h2 : ∀ a b, div2 (add a b) = add (div2 a) (div2 b))
    (xs ys : List α) (h : xs.length = ys.length) :
    ctrDiffG zero add sub divb div2 (List.zipWith add xs ys) =
      List.zipWith add (ctrDiffG zero add sub divb div2 xs)
        (ctrDiffG zero add sub divb div2 ys) := by
  cases xs with
  | nil =>
    cases ys with
    | nil => rfl
    | cons y ys => simp at h
  | cons x xs =>
    cases ys with
    | nil => simp at h
    | cons y ys =>
      show divEndsG divb div2 (pairAddG add
          (zero :: npdiffG sub (List.zipWith add (x :: xs) (y :: ys)))) = _
      rw [npdiffG_zip add sub lawsub]
      have hcons : zero :: List.zipWith add (npdiffG sub (x :: xs)) (npdiffG sub (y :: ys)) =
          List.zipWith add (zero :: npdiffG sub (x :: xs)) (zero :: npdiffG sub (y :: ys)) := by
        simp [hzero]
      rw [hcons]
      have hxy : xs.length = ys.length := by simpa using h
      have hdl : (zero :: npdiffG sub (x :: xs)).length =
          (zero :: npdiffG sub (y :: ys)).length := by
        simp [npdiffG, List.length_zipWith, hxy]
      rw [pairAddG_zip add lawadd _ _ hdl]
      have hpl : (pairAddG add (zero :: npdiffG sub (x :: xs))).length =
          (pairAddG add (zero :: npdiffG sub (y :: ys))).length := by
        rw [pairAddG_length, pairAddG_length]
        exact hdl
      exact divEndsG_zip add divb div2 hb h2 _ _ hpl

theorem divMidG_map (φ : α → α) (divb div2 : α → α)
    (hbφ : ∀ a, φ (divb a) = divb (φ a)) (h2φ : ∀ a, φ (div2 a) = div2 (φ a)) :
    ∀ (xs : List α),
      divMidG divb div2 (xs.map φ) = (divMidG divb div2 xs).map φ := by
  intro xs
  induction xs with
  | nil => rfl
  | cons x xs ih =>
    cases xs with
    | nil => simp [divMidG, hbφ]
    | cons y rest =>
      simp only [List.map_cons, divMidG] at ih ⊢
      rw [List.cons.injEq]
      exact ⟨(h2φ x).symm, ih⟩

theorem divEndsG_map (φ : α → α) (divb div2 : α → α)
    (hbφ : ∀ a, φ (divb a) = divb (φ a)) (h2φ : ∀ a, φ (div2 a) = div2 (φ a)) :
    ∀ (xs : List α),
      divEndsG divb div2 (xs.map φ) = (divEndsG divb div2 xs).map φ := by
  intro xs
  cases xs with
  | nil => rfl
  | cons x xs =>
    cases xs with
    | nil => simp [divEndsG, hbφ]
    | cons y rest =>
      simp only [List.map_cons, divEndsG]
      rw [List.cons.injEq]
      exact ⟨(hbφ x).symm, divMidG_map φ divb div2 hbφ h2φ (y :: rest)⟩

theorem pairAddG_map (φ : α → α) (add : α → α → α)
    (haddφ : ∀ a b, φ (add a b) = add (φ a) (φ b)) :
    ∀ (xs : List α), pairAddG add (xs.map φ) = (pairAddG add xs).map φ := by
  intro xs
  induction xs with
  | nil => rfl
  | cons x xs ih =>
    cases xs with
    | nil => rfl
    | cons y rest =>
      simp only [List.map_cons, pairAddG] at ih ⊢
      rw [List.cons.injEq]
      exact ⟨(haddφ x y).symm, ih⟩

theorem zipWith_map_dist (φ : α → α) (g : α → α → α)
    (law : ∀ x y, φ (g x y) = g (φ x) (φ y)) :
    ∀ (a b : List α),
      List.zipWith g (a.map φ) (b.map φ) = (List.zipWith g a b).map φ := by
  intro a
  induction a with
  | nil => intro b; rfl
  | cons x xs ih =>
    intro b
    cases b with
    | nil => rfl
    | cons y ys => simp [ih, law]

theorem npdiffG_map (φ : α → α) (sub : α → α → α)
    (hsubφ : ∀ a b, φ (sub a b) = sub (φ a) (φ b)) (xs : List α) :
    npdiffG sub (xs.map φ) = (npdiffG sub xs).map φ := by
  unfold npdiffG
  rw [← List.map_tail]
  exact zipWith_map_dist φ sub hsubφ xs.tail xs

theorem ctrDiffG_map (zero : α) (add sub : α → α → α) (divb div2 : α → α)
    (φ : α → α) (hzφ : φ zero = zero)
    (haddφ : ∀ a b, φ (add a b) = add (φ a) (φ b))
    (hsubφ : ∀ a b, φ (sub a b) = sub (φ a) (φ b))
    (hbφ : ∀ a, φ (divb a) = divb (φ a)) (h2φ : ∀ a, φ (div2 a) = div2 (φ a))
    (xs : List α) :
    ctrDiffG zero add sub divb div2 (xs.map φ) =
      (ctrDiffG zero add sub divb div2 xs).map φ := by
  cases xs with
  | nil => rfl
  | cons x xs =>
    show divEndsG divb div2 (pairAddG add (zero :: npdiffG sub ((x :: xs).map φ))) = _
    rw [npdiffG_map φ sub hsubφ]
    have hcons : zero :: (npdiffG sub (x :: xs)).map φ =
        (zero :: npdiffG sub (x :: xs)).map φ := by simp [hzφ]
    rw [hcons, pairAddG_map φ add haddφ, divEndsG_map φ divb div2 hbφ h2φ]
    rfl

end generic

/-- An elementwise map distributes over an elementwise zip when it distributes
pointwise. -/
theorem map_zipWith_dist {α β : Type} (φ : α → β) (g : α → α → α) (gb : β → β → β)
    (law : ∀ x y, φ (g x y) = gb (φ x) (φ y)) :
    ∀ (a b : List α),
      (List.zipWith g a b).map φ = List.zipWith gb (a.map φ) (b.map φ) := by
  intro a
  induction a with
  | nil => intro b; rfl
  | cons x xs ih =>
    intro b
    cases b with
    | nil => rfl
    | cons y ys => simp [ih, law]

/-- The sum along axis 0 distributes over an elementwise bilinear combination
of two stacks of equal time extent. -/
theorem npSumQ_zip (g : ℚ → ℚ → ℚ)
    (law : ∀ a b c d, (g a b) + (g c d) = g (a + c) (b + d)) :
    ∀ (A B : List (List ℚ)), A.length = B.length →
      npSumQ (zip2Q g A B) = List.zipWith g (npSumQ A) (npSumQ B) := by
  intro A
  induction A with
  | nil =>
    intro B hB
    cases B with
    | nil => rfl
    | cons r rs => simp at hB
  | cons r rs ih =>
    intro B hB
    cases B with
    | nil => simp at hB
    | cons s ss =>
      have hlen : rs.length = ss.length := by simpa using hB
      cases rs with
      | nil =>
        cases ss with
        | nil => rfl
        | cons s2 ss2 => simp at hlen
      | cons r2 rs2 =>
        cases ss with
        | nil => simp at hlen
        | cons s2 ss2 =>
          have step : npSumQ (zip2Q g (r :: r2 :: rs2) (s :: s2 :: ss2)) =
              List.zipWith (· + ·) (List.zipWith g r s)
                (npSumQ (zip2Q g (r2 :: rs2) (s2 :: ss2))) := rfl
          rw [step, ih (s2 :: ss2) hlen]
          rw [zipWith_interchangeG (· + ·) g (fun a b c d => law a b c d)]
          rfl

/-- Shape of an elementwise combination. -/
theorem zip2Q_shape (g : ℚ → ℚ → ℚ) :
    ∀ (A B : List (List ℚ)), A.map List.length = B.map List.length →
      (zip2Q g A B).map List.length = A.map List.length := by
  intro A
  induction A with
  | nil => intro B _; rfl
  | cons r rs ih =>
    intro B hB
    cases B with
    | nil => simp at hB
    | cons s ss =>
      simp only [List.map_cons, List.cons.injEq] at hB
      simp only [zip2Q, List.zipWith_cons_cons, List.map_cons, List.cons.injEq]
      exact ⟨by rw [List.length_zipWith, hB.1, Nat.min_self], ih ss hB.2⟩

/-- The time mean distributes over an elementwise bilinear combination of two
stacks of the same shape. -/
theorem npMeanQ_zip (g : ℚ → ℚ → ℚ)
    (law : ∀ a b c d, (g a b) + (g c d) = g (a + c) (b + d))
    (lawdiv : ∀ (x y : ℚ) (n : ℚ), (g x y) / n = g (x / n) (y / n))
    (A B : List (List ℚ)) (h : A.map List.length = B.map List.length) :
    npMeanQ (zip2Q g A B) = List.zipWith g (npMeanQ A) (npMeanQ B) := by
  have hlen : A.length = B.length := by
    simpa using congrArg List.length h
  rw [npMeanQ, npSumQ_zip g law A B hlen]
  have hzl : (zip2Q g A B).length = A.length := by
    simp [zip2Q, List.length_zipWith, hlen, Nat.min_self]
  rw [hzl]
  rw [map_zipWith_dist (fun x => x / (A.length : ℚ)) g g
    (fun x y => lawdiv x y (A.length : ℚ))]
  rw [npMeanQ, npMeanQ, hlen]


/-- Rain.computeValues (lines 322-331): RAINNC + RAINC, rejecting delta = 0
because the inputs are accumulated fields. -/
def Rain.computeValues (delta : ℚ) (RAINNC RAINC : List (List ℚ)) :
    Except String (List (List ℚ)) :=
  if delta = 0 then
    .error "ValueError: differences can not be computed from single time steps"
  else .ok (zip2Q (· + ·) RAINNC RAINC)

/-- RainMean.computeValues (lines 348-355): RAINNCVMEAN + RAINCVMEAN. -/
def RainMean.computeValues (RAINNCVMEAN RAINCVMEAN : List (List ℚ)) : List (List ℚ) :=
  zip2Q (· + ·) RAINNCVMEAN RAINCVMEAN

/-- LiquidPrecip.computeValues (lines 437-445): RAINNC + RAINC - ACSNOW. -/
def LiquidPrecip.computeValues (RAINNC RAINC ACSNOW : List (List ℚ)) : List (List ℚ) :=
  zip2Q (· - ·) (zip2Q (· + ·) RAINNC RAINC) ACSNOW

/-- SolidPrecip.computeValues (lines 461-468): a copy of ACSNOW. -/
def SolidPrecip.computeValues (ACSNOW : List (List ℚ)) : List (List ℚ) := ACSNOW

/-- NetPrecip.computeValues (lines 541-548): RAIN - SFCEVP. -/
def NetPrecip.computeValues (RAIN SFCEVP : List (List ℚ)) : List (List ℚ) :=
  zip2Q (· - ·) RAIN SFCEVP

/-- NetWaterFlux.computeValues (lines 564-571):
LiquidPrecip - SFCEVP + ACSNOM. -/
def NetWaterFlux.computeValues (LiquidPrecip SFCEVP ACSNOM : List (List ℚ)) :
    List (List ℚ) :=
  zip2Q (· + ·) (zip2Q (· - ·) LiquidPrecip SFCEVP) ACSNOM

/-- WaterForcing.computeValues (lines 587-594): LiquidPrecip + ACSNOM. -/
def WaterForcing.computeValues (LiquidPrecip ACSNOM : List (List ℚ)) : List (List ℚ) :=
  zip2Q (· + ·) LiquidPrecip ACSNOM

/-- RunOff.computeValues (lines 610-617): SFROFF + UDROFF. -/
def RunOff.computeValues (SFROFF UDROFF : List (List ℚ)) : List (List ℚ) :=
  zip2Q (· + ·) SFROFF UDROFF

/-- NetRadiation.computeValues (lines 865-872): SWDN - SWUP + LWDN - LWUP. -/
def NetRadiation.computeValues (SWDN SWUP LWDN LWUP : List (List ℚ)) : List (List ℚ) :=
  zip2Q (· - ·) (zip2Q (· + ·) (zip2Q (· - ·) SWDN SWUP) LWDN) LWUP

/-- NetLWRadiation.computeValues (lines 888-895): LWDN - LWUP. -/
def NetLWRadiation.computeValues (LWDN LWUP : List (List ℚ)) : List (List ℚ) :=
  zip2Q (· - ·) LWDN LWUP

/-- WetDayPrecip.computeValues (lines 743-754), declared linear=True in its
constructor (line 739): np.where(wetdays == 0, 0, wetdayrain / wetdays); the
rational division is total with x / 0 = 0, matching the guarded numpy where
result. -/
def WetDayPrecip.computeValues (wetdays wetdayrain : List (List ℚ)) : List (List ℚ) :=
  zip2Q (fun wd wdr => if wd = 0 then 0 else wdr / wd) wetdays wetdayrain

theorem add_law : ∀ a b c d : ℚ, (a + b) + (c + d) = (a + c) + (b + d) := by
  intro a b c d; ring

theorem sub_law : ∀ a b c d : ℚ, (a - b) + (c - d) = (a + c) - (b + d) := by
  intro a b c d; ring

theorem add_div_law : ∀ (x y n : ℚ), (x + y) / n = x / n + y / n := by
  intro x y n; ring

theorem sub_div_law : ∀ (x y n : ℚ), (x - y) / n = x / n - y / n := by
  intro x y n; ring

/-- Singleton form of npMeanQ_zip for the sum, matching computeValues applied
to one averaged time step. -/
theorem mean_commute_add (A B : List (List ℚ))
    (h : A.map List.length = B.map List.length) :
    zip2Q (· + ·) [npMeanQ A] [npMeanQ B] = [npMeanQ (zip2Q (· + ·) A B)] := by
  simp only [zip2Q, List.zipWith_cons_cons, List.zipWith_nil_right]
  exact congrArg (fun r => [r]) (npMeanQ_zip (· + ·) add_law add_div_law A B h).symm

/-- Singleton form of npMeanQ_zip for the difference. -/
theorem mean_commute_sub (A B : List (List ℚ))
    (h : A.map List.length = B.map List.length) :
    zip2Q (· - ·) [npMeanQ A] [npMeanQ B] = [npMeanQ (zip2Q (· - ·) A B)] := by
  simp only [zip2Q, List.zipWith_cons_cons, List.zipWith_nil_right]
  exact congrArg (fun r => [r]) (npMeanQ_zip (· - ·) sub_law sub_div_law A B h).symm

/-- C8 counterexample: WetDayPrecip is declared linear=True (line 739) but its
ratio formula does not commute with time averaging: on 3 synthetic timesteps
with wet-day fractions 1,1,0 and wet-day rain 2,4,0 at one grid point,
computing on the averaged inputs yields 3 while the average of the
per-timestep results is 2. -/
theorem wetDayPrecip_declared_linear_not_commuting :
    WetDayPrecip.computeValues [npMeanQ [[1], [1], [0]]] [npMeanQ [[2], [4], [0]]] =
      [[3]] ∧
    [npMeanQ (WetDayPrecip.computeValues [[1], [1], [0]] [[2], [4], [0]])] = [[2]] ∧
    WetDayPrecip.computeValues [npMeanQ [[1], [1], [0]]] [npMeanQ [[2], [4], [0]]] ≠
      [npMeanQ (WetDayPrecip.computeValues [[1], [1], [0]] [[2], [4], [0]])] := by
  refine ⟨?_, ?_, ?_⟩
  · norm_num [WetDayPrecip.computeValues, npMeanQ, npSumQ, zip2Q]
  · norm_num [WetDayPrecip.computeValues, npMeanQ, npSumQ, zip2Q]
  · norm_num [WetDayPrecip.computeValues, npMeanQ, npSumQ, zip2Q]

/-- ctrDiff along axis 0 for a one-dimensional slice: the centered-difference
scheme of lines 123-141 with the two normalization branches of lines 133-137
(the delta = 1 branch skips the boundary division, which divides by 1). -/
def ctrDiff1d (delta : ℚ) (xs : List ℚ) : List ℚ :=
  if delta = 1 then
    ctrDiffG 0 (· + ·) (· - ·) id (fun v => v / 2) xs
  else
    ctrDiffG 0 (· + ·) (· - ·) (fun v => v / delta) (fun v => v / (2 * delta)) xs

/-- ctrDiff along axis 0 of a two-dimensional slice: the same scheme with
whole rows as elements, matching the numpy slice arithmetic after rollaxis. -/
def ctrDiffRows (delta : ℚ) (m : List (List ℚ)) : List (List ℚ) :=
  let zero := List.replicate ((m.headD []).length) (0 : ℚ)
  if delta = 1 then
    ctrDiffG zero (List.zipWith (· + ·)) (List.zipWith (· - ·)) id
      (List.map (fun v => v / 2)) m
  else
    ctrDiffG zero (List.zipWith (· + ·)) (List.zipWith (· - ·))
      (List.map (fun v => v / delta)) (List.map (fun v => v / (2 * delta))) m

theorem ctrDiff1d_zip (delta : ℚ) (r s : List ℚ) (h : r.length = s.length) :
    ctrDiff1d delta (List.zipWith (· + ·) r s) =
      List.zipWith (· + ·) (ctrDiff1d delta r) (ctrDiff1d delta s) := by
  unfold ctrDiff1d
  by_cases hd : delta = 1 <;> simp only [hd, if_pos, if_neg, ite_true, ite_false]
  · exact ctrDiffG_zip 0 (· + ·) (· - ·) id (fun v => v / 2) (by ring)
      (fun a b c d => by ring) (fun a b c d => by ring) (fun a b => by rfl)
      (fun a b => by ring) r s h
  · exact ctrDiffG_zip 0 (· + ·) (· - ·) (fun v => v / delta) (fun v => v / (2 * delta))
      (by ring) (fun a b c d => by ring) (fun a b c d => by ring)
      (fun a b => by ring) (fun a b => by ring) r s h

theorem ctrDiff1d_div (delta c : ℚ) (r : List ℚ) :
    ctrDiff1d delta (r.map (fun v => v / c)) =
      (ctrDiff1d delta r).map (fun v => v / c) := by
  unfold ctrDiff1d
  by_cases hd : delta = 1 <;> simp only [hd, ite_true, ite_false]
  · exact ctrDiffG_map 0 (· + ·) (· - ·) id (fun v => v / 2) (fun v => v / c)
      (by ring) (fun a b => by ring) (fun a b => by ring) (fun a => by rfl)
      (fun a => by ring) r
  · exact ctrDiffG_map 0 (· + ·) (· - ·) (fun v => v / delta) (fun v => v / (2 * delta))
      (fun v => v / c) (by ring) (fun a b => by ring) (fun a b => by ring)
      (fun a => by ring) (fun a => by ring) r

theorem addRow_zero (n : ℕ) :
    List.zipWith (· + ·) (List.replicate n (0 : ℚ)) (List.replicate n (0 : ℚ)) =
      List.replicate n (0 : ℚ) := by
  induction n with
  | zero => rfl
  | succ k ih => simp [List.replicate, ih]

theorem row_interchange_sub (a b c d : List ℚ) :
    List.zipWith (· - ·) (List.zipWith (· + ·) a b) (List.zipWith (· + ·) c d) =
      List.zipWith (· + ·) (List.zipWith (· - ·) a c) (List.zipWith (· - ·) b d) :=
  zipWith_interchangeG (· - ·) (· + ·) (fun a b c d => by ring) a b c d

theorem row_interchange_add (a b c d : List ℚ) :
    List.zipWith (· + ·) (List.zipWith (· + ·) a b) (List.zipWith (· + ·) c d) =
      List.zipWith (· + ·) (List.zipWith (· + ·) a c) (List.zipWith (· + ·) b d) :=
  zipWith_interchangeG (· + ·) (· + ·) (fun a b c d => by ring) a b c d

theorem rowmap_add (c : ℚ) (a b : List ℚ) :
    (List.zipWith (· + ·) a b).map (fun v => v / c) =
      List.zipWith (· + ·) (a.map (fun v => v / c)) (b.map (fun v => v / c)) :=
  (zipWith_map_dist (fun v => v / c) (· + ·) (fun x y => by ring) a b).symm

theorem rowmap_sub (c : ℚ) (a b : List ℚ) :
    (List.zipWith (· - ·) a b).map (fun v => v / c) =
      List.zipWith (· - ·) (a.map (fun v => v / c)) (b.map (fun v => v / c)) :=
  (zipWith_map_dist (fun v => v / c) (· - ·) (fun x y => by ring) a b).symm

theorem map_div_comm (c d : ℚ) (a : List ℚ) :
    (a.map (fun v => v / d)).map (fun v => v / c) =
      (a.map (fun v => v / c)).map (fun v => v / d) := by
  simp only [List.map_map]
  refine List.map_congr_left ?_
  intro x _
  show x / d / c = x / c / d
  ring

theorem ctrDiffRows_nil (delta : ℚ) : ctrDiffRows delta [] = [] := by
  unfold ctrDiffRows
  split <;> rfl

theorem ctrDiffRows_zip (delta : ℚ) (m w : List (List ℚ))
    (h : m.map List.length = w.map List.length) :
    ctrDiffRows delta (List.zipWith (List.zipWith (· + ·)) m w) =
      List.zipWith (List.zipWith (· + ·)) (ctrDiffRows delta m) (ctrDiffRows delta w) := by
  cases m with
  | nil =>
    cases w with
    | nil => simp [ctrDiffRows_nil]
    | cons s ss => simp at h
  | cons r rs =>
    cases w with
    | nil => simp at h
    | cons s ss =>
      simp only [List.map_cons, List.cons.injEq] at h
      have hr : r.length = s.length := h.1
      have h2l : rs.length = ss.length := by simpa using congrArg List.length h.2
      have hlen : (r :: rs).length = (s :: ss).length := by simp [h2l]
      have hz : ((List.zipWith (List.zipWith (· + ·)) (r :: rs) (s :: ss)).headD []).length
          = r.length := by
        simp [List.length_zipWith, hr]
      simp only [ctrDiffRows, hz, List.headD_cons, ← hr]
      by_cases hd : delta = 1 <;> simp only [hd, ite_true, ite_false]
      · exact ctrDiffG_zip (List.replicate r.length 0) (List.zipWith (· + ·))
          (List.zipWith (· - ·)) id (List.map (fun v => v / 2))
          (addRow_zero r.length) row_interchange_sub row_interchange_add
          (fun a b => rfl) (rowmap_add 2) (r :: rs) (s :: ss) hlen
      · exact ctrDiffG_zip (List.replicate r.length 0) (List.zipWith (· + ·))
          (List.zipWith (· - ·)) (List.map (fun v => v / delta))
          (List.map (fun v => v / (2 * delta)))
          (addRow_zero r.length) row_interchange_sub row_interchange_add
          (rowmap_add delta) (rowmap_add (2 * delta)) (r :: rs) (s :: ss) hlen

theorem map_replicate_zero_div (c : ℚ) (n : ℕ) :
    (List.replicate n (0 : ℚ)).map (fun v => v / c) = List.replicate n (0 : ℚ) := by
  simp [List.map_replicate]

theorem ctrDiffRows_div (delta c : ℚ) (m : List (List ℚ)) :
    ctrDiffRows delta (m.map (List.map (fun v => v / c))) =
      (ctrDiffRows delta m).map (List.map (fun v => v / c)) := by
  cases m with
  | nil => simp [ctrDiffRows_nil]
  | cons r rs =>
    have hz : (((r :: rs).map (List.map (fun v => v / c))).headD []).length
        = r.length := by simp
    simp only [ctrDiffRows, hz, List.headD_cons]
    by_cases hd : delta = 1 <;> simp only [hd, ite_true, ite_false]
    · exact ctrDiffG_map (List.replicate r.length 0) (List.zipWith (· + ·))
        (List.zipWith (· - ·)) id (List.map (fun v => v / 2))
        (List.map (fun v => v / c)) (map_replicate_zero_div c r.length)
        (rowmap_add c) (rowmap_sub c)
        (fun a => rfl) (fun a => map_div_comm c 2 a) (r :: rs)
    · exact ctrDiffG_map (List.replicate r.length 0) (List.zipWith (· + ·))
        (List.zipWith (· - ·)) (List.map (fun v => v / delta))
        (List.map (fun v => v / (2 * delta))) (List.map (fun v => v / c))
        (map_replicate_zero_div c r.length)
        (rowmap_add c) (rowmap_sub c)
        (fun a => map_div_comm c delta a) (fun a => map_div_comm c (2 * delta) a)
        (r :: rs)

/-- Vorticity.computeValues (lines 1289-1297): relative vorticity
dv/dx - du/dy on pressure levels, with ctrDiff along the west-east axis of
V_PL (axis 3, spacing DX) and along the south-north axis of U_PL (axis 2,
spacing DY); the 4D fields are (time, level, south-north, west-east) nested
lists, and applying ctrDiff after rollaxis equals applying the axis-0 scheme
within each slice. -/
def ctrDiffAx3 (delta : ℚ) (d : List (List (List (List ℚ)))) :
    List (List (List (List ℚ))) :=
  d.map (List.map (List.map (ctrDiff1d delta)))

def ctrDiffAx2 (delta : ℚ) (d : List (List (List (List ℚ)))) :
    List (List (List (List ℚ))) :=
  d.map (List.map (ctrDiffRows delta))

def Vorticity.computeValues (DX DY : ℚ) (U_PL V_PL : List (List (List (List ℚ)))) :
    List (List (List (List ℚ))) :=
  List.zipWith (List.zipWith (List.zipWith (List.zipWith (· - ·))))
    (ctrDiffAx3 DX V_PL) (ctrDiffAx2 DY U_PL)

/-- The np.sum reduction along axis 0 of a 4D stack. -/
def npSumQ3 : List (List (List (List ℚ))) → List (List (List ℚ))
  | [] => []
  | [m] => m
  | m :: ms => List.zipWith (List.zipWith (List.zipWith (· + ·))) m (npSumQ3 ms)

/-- The np.mean reduction along axis 0 of a 4D stack. -/
def npMeanQ3 (a : List (List (List (List ℚ)))) : List (List (List ℚ)) :=
  (npSumQ3 a).map (List.map (List.map (fun x => x / (a.length : ℚ))))

/-- Shape descriptor of one time slice of a 4D stack. -/
def shape3 (m : List (List (List ℚ))) : List (List ℕ) :=
  m.map (List.map List.length)

theorem zipzip_shape (u v : List (List ℚ))
    (h : u.map List.length = v.map List.length) :
    (List.zipWith (List.zipWith (· + ·)) u v).map List.length = u.map List.length := by
  induction u generalizing v with
  | nil => rfl
  | cons r rs ih =>
    cases v with
    | nil => simp at h
    | cons s ss =>
      simp only [List.map_cons, List.cons.injEq] at h
      simp only [List.zipWith_cons_cons, List.map_cons, List.cons.injEq]
      exact ⟨by rw [List.length_zipWith, h.1, Nat.min_self], ih ss h.2⟩

theorem shape3_zip3 (a b : List (List (List ℚ))) (h : shape3 a = shape3 b) :
    shape3 (List.zipWith (List.zipWith (List.zipWith (· + ·))) a b) = shape3 a := by
  induction a generalizing b with
  | nil => rfl
  | cons u us ih =>
    cases b with
    | nil => simp [shape3] at h
    | cons v vs =>
      simp only [shape3, List.map_cons, List.cons.injEq] at h
      simp only [shape3, List.zipWith_cons_cons, List.map_cons, List.cons.injEq]
      refine ⟨zipzip_shape u v h.1, ?_⟩
      exact ih vs h.2

theorem mapCtr1d_zip (delta : ℚ) (u v : List (List ℚ))
    (h : u.map List.length = v.map List.length) :
    (List.zipWith (List.zipWith (· + ·)) u v).map (ctrDiff1d delta) =
      List.zipWith (List.zipWith (· + ·)) (u.map (ctrDiff1d delta))
        (v.map (ctrDiff1d delta)) := by
  induction u generalizing v with
  | nil => rfl
  | cons r rs ih =>
    cases v with
    | nil => rfl
    | cons s ss =>
      simp only [List.map_cons, List.cons.injEq] at h
      simp only [List.zipWith_cons_cons, List.map_cons, List.cons.injEq]
      exact ⟨ctrDiff1d_zip delta r s h.1, ih ss h.2⟩

theorem F3_zip (delta : ℚ) (a b : List (List (List ℚ))) (h : shape3 a = shape3 b) :
    (List.zipWith (List.zipWith (List.zipWith (· + ·))) a b).map
        (List.map (ctrDiff1d delta)) =
      List.zipWith (List.zipWith (List.zipWith (· + ·)))
        (a.map (List.map (ctrDiff1d delta))) (b.map (List.map (ctrDiff1d delta))) := by
  induction a generalizing b with
  | nil => rfl
  | cons u us ih =>
    cases b with
    | nil => rfl
    | cons v vs =>
      simp only [shape3, List.map_cons, List.cons.injEq] at h
      simp only [List.zipWith_cons_cons, List.map_cons, List.cons.injEq]
      exact ⟨mapCtr1d_zip delta u v h.1, ih vs h.2⟩

theorem G3_zip (delta : ℚ) (a b : List (List (List ℚ))) (h : shape3 a = shape3 b) :
    (List.zipWith (List.zipWith (List.zipWith (· + ·))) a b).map (ctrDiffRows delta) =
      List.zipWith (List.zipWith (List.zipWith (· + ·)))
        (a.map (ctrDiffRows delta)) (b.map (ctrDiffRows delta)) := by
  induction a generalizing b with
  | nil => rfl
  | cons u us ih =>
    cases b with
    | nil => rfl
    | cons v vs =>
      simp only [shape3, List.map_cons, List.cons.injEq] at h
      simp only [List.zipWith_cons_cons, List.map_cons, List.cons.injEq]
      exact ⟨ctrDiffRows_zip delta u v h.1, ih vs h.2⟩

theorem F3_div (delta c : ℚ) (m : List (List (List ℚ))) :
    (m.map (List.map (List.map (fun v => v / c)))).map (List.map (ctrDiff1d delta)) =
      (m.map (List.map (ctrDiff1d delta))).map (List.map (List.map (fun v => v / c))) := by
  simp only [List.map_map]
  refine List.map_congr_left ?_
  intro sl _
  simp only [Function.comp_def, List.map_map]
  refine List.map_congr_left ?_
  intro row _
  exact ctrDiff1d_div delta c row

theorem G3_div (delta c : ℚ) (m : List (List (List ℚ))) :
    (m.map (List.map (List.map (fun v => v / c)))).map (ctrDiffRows delta) =
      (m.map (ctrDiffRows delta)).map (List.map (List.map (fun v => v / c))) := by
  simp only [List.map_map]
  refine List.map_congr_left ?_
  intro sl _
  simp only [Function.comp_def]
  exact ctrDiffRows_div delta c sl

theorem npSumQ3_shape (sh : List (List ℕ)) :
    ∀ (X : List (List (List (List ℚ)))), (∀ m ∈ X, shape3 m = sh) → X ≠ [] →
      shape3 (npSumQ3 X) = sh := by
  intro X
  induction X with
  | nil => intro _ hne; exact absurd rfl hne
  | cons m ms ih =>
    intro hall _
    cases ms with
    | nil => exact hall m (by simp)
    | cons m2 ms2 =>
      show shape3 (List.zipWith (List.zipWith (List.zipWith (· + ·))) m
        (npSumQ3 (m2 :: ms2))) = sh
      have hm : shape3 m = sh := hall m (by simp)
      have hrest : shape3 (npSumQ3 (m2 :: ms2)) = sh :=
        ih (fun x hx => hall x (by simp [hx])) (by simp)
      rw [shape3_zip3 m (npSumQ3 (m2 :: ms2)) (by rw [hm, hrest]), hm]

theorem npSumQ3_map (F : List (List (List ℚ)) → List (List (List ℚ)))
    (hF : ∀ a b, shape3 a = shape3 b →
      F (List.zipWith (List.zipWith (List.zipWith (· + ·))) a b) =
        List.zipWith (List.zipWith (List.zipWith (· + ·))) (F a) (F b))
    (sh : List (List ℕ)) :
    ∀ (X : List (List (List (List ℚ)))), (∀ m ∈ X, shape3 m = sh) → X ≠ [] →
      npSumQ3 (X.map F) = F (npSumQ3 X) := by
  intro X
  induction X with
  | nil => intro _ hne; exact absurd rfl hne
  | cons m ms ih =>
    intro hall _
    cases ms with
    | nil => rfl
    | cons m2 ms2 =>
      show List.zipWith (List.zipWith (List.zipWith (· + ·))) (F m)
          (npSumQ3 ((m2 :: ms2).map F)) = _
      rw [ih (fun x hx => hall x (by simp [hx])) (by simp)]
      rw [← hF m (npSumQ3 (m2 :: ms2))]
      · rfl
      · rw [hall m (by simp),
          npSumQ3_shape sh (m2 :: ms2) (fun x hx => hall x (by simp [hx])) (by simp)]

theorem npMeanQ3_map (F : List (List (List ℚ)) → List (List (List ℚ)))
    (hF : ∀ a b, shape3 a = shape3 b →
      F (List.zipWith (List.zipWith (List.zipWith (· + ·))) a b) =
        List.zipWith (List.zipWith (List.zipWith (· + ·))) (F a) (F b))
    (hFdiv : ∀ (c : ℚ) (x : List (List (List ℚ))),
      F (x.map (List.map (List.map (fun v => v / c)))) =
        (F x).map (List.map (List.map (fun v => v / c))))
    (sh : List (List ℕ)) (X : List (List (List (List ℚ))))
    (hall : ∀ m ∈ X, shape3 m = sh) (hne : X ≠ []) :
    npMeanQ3 (X.map F) = F (npMeanQ3 X) := by
  unfold npMeanQ3
  rw [npSumQ3_map F hF sh X hall hne, List.length_map, ← hFdiv]

/-- Interchange of elementwise sum and difference over 3D slices. -/
theorem interchange3 (a b c d : List (List (List ℚ))) :
    List.zipWith (List.zipWith (List.zipWith (· + ·)))
        (List.zipWith (List.zipWith (List.zipWith (· - ·))) a b)
        (List.zipWith (List.zipWith (List.zipWith (· - ·))) c d) =
      List.zipWith (List.zipWith (List.zipWith (· - ·)))
        (List.zipWith (List.zipWith (List.zipWith (· + ·))) a c)
        (List.zipWith (List.zipWith (List.zipWith (· + ·))) b d) := by
  refine zipWith_interchangeG _ _ ?_ a b c d
  intro u v w z
  refine zipWith_interchangeG _ _ ?_ u v w z
  intro r s r2 s2
  exact zipWith_interchangeG (· + ·) (· - ·) (fun x y x2 y2 => by ring) r s r2 s2

theorem npSumQ3_zipsub :
    ∀ (Xs Ys : List (List (List (List ℚ)))), Xs.length = Ys.length →
      npSumQ3 (List.zipWith (List.zipWith (List.zipWith (List.zipWith (· - ·)))) Xs Ys) =
        List.zipWith (List.zipWith (List.zipWith (· - ·))) (npSumQ3 Xs) (npSumQ3 Ys) := by
  intro Xs
  induction Xs with
  | nil =>
    intro Ys h
    cases Ys with
    | nil => rfl
    | cons w ws => simp at h
  | cons m ms ih =>
    intro Ys h
    cases Ys with
    | nil => simp at h
    | cons w ws =>
      have h2 : ms.length = ws.length := by simpa using h
      cases ms with
      | nil =>
        cases ws with
        | nil => rfl
        | cons w2 ws2 => simp at h2
      | cons m2 ms2 =>
        cases ws with
        | nil => simp at h2
        | cons w2 ws2 =>
          show List.zipWith (List.zipWith (List.zipWith (· + ·)))
              (List.zipWith (List.zipWith (List.zipWith (· - ·))) m w)
              (npSumQ3 (List.zipWith
                (List.zipWith (List.zipWith (List.zipWith (· - ·))))
                (m2 :: ms2) (w2 :: ws2))) = _
          rw [ih (w2 :: ws2) h2, interchange3]
          rfl

theorem map3div_zipsub (c : ℚ) (A B : List (List (List ℚ))) :
    (List.zipWith (List.zipWith (List.zipWith (· - ·))) A B).map
        (List.map (List.map (fun v => v / c))) =
      List.zipWith (List.zipWith (List.zipWith (· - ·)))
        (A.map (List.map (List.map (fun v => v / c))))
        (B.map (List.map (List.map (fun v => v / c)))) := by
  refine (zipWith_map_dist (List.map (List.map (fun v => v / c)))
    (List.zipWith (List.zipWith (· - ·))) ?_ A B).symm
  intro u v
  refine (zipWith_map_dist (List.map (fun v => v / c))
    (List.zipWith (· - ·)) ?_ u v).symm
  intro r s
  exact rowmap_sub c r s

theorem npMeanQ3_zipsub (Xs Ys : List (List (List (List ℚ))))
    (h : Xs.length = Ys.length) :
    npMeanQ3 (List.zipWith (List.zipWith (List.zipWith (List.zipWith (· - ·)))) Xs Ys) =
      List.zipWith (List.zipWith (List.zipWith (· - ·)))
        (npMeanQ3 Xs) (npMeanQ3 Ys) := by
  unfold npMeanQ3
  rw [npSumQ3_zipsub Xs Ys h, List.length_zipWith, h, Nat.min_self]
  exact map3div_zipsub (Ys.length : ℚ) (npSumQ3 Xs) (npSumQ3 Ys)

/-- Commutation of the vorticity computation with time averaging. -/
theorem vorticity_mean_commute (DX DY : ℚ) (U V : List (List (List (List ℚ))))
    (sh : List (List ℕ)) (hlen : U.length = V.length) (hne : U ≠ [])
    (hU : ∀ m ∈ U, shape3 m = sh) (hV : ∀ m ∈ V, shape3 m = sh) :
    Vorticity.computeValues DX DY [npMeanQ3 U] [npMeanQ3 V] =
      [npMeanQ3 (Vorticity.computeValues DX DY U V)] := by
  have hVne : V ≠ [] := by
    intro hv
    rw [hv] at hlen
    simp at hlen
    exact hne hlen
  unfold Vorticity.computeValues ctrDiffAx3 ctrDiffAx2
  simp only [List.map_cons, List.map_nil, List.zipWith_cons_cons, List.zipWith_nil_right]
  rw [npMeanQ3_zipsub (V.map (List.map (List.map (ctrDiff1d DX))))
      (U.map (List.map (ctrDiffRows DY))) (by simp [hlen])]
  rw [npMeanQ3_map (List.map (List.map (ctrDiff1d DX)))
      (fun a b hab => F3_zip DX a b hab) (fun c x => F3_div DX c x) sh V hV hVne]
  rw [npMeanQ3_map (List.map (ctrDiffRows DY))
      (fun a b hab => G3_zip DY a b hab) (fun c x => G3_div DY c x) sh U hU hne]

/-- C8 amended: every variable declared linear=True, except the WetDayPrecip
family, commutes with time-averaging: applying computeValues to the
time-averaged input chunk (one averaged time step) equals averaging the
per-chunk result over the time axis, for every chunk of at least 3 time steps
of the prerequisite fields.  The variables declared linear=True in the source
are Rain, RainMean, LiquidPrecip, SolidPrecip, NetPrecip, NetWaterFlux,
WaterForcing, RunOff, WetDayPrecip, NetRadiation, NetLWRadiation and
Vorticity; WetDayPrecip is excluded by the counterexample. -/
theorem linear_variables_commute_with_averaging :
    (∀ (delta : ℚ) (A B : List (List ℚ)), delta ≠ 0 →
      A.map List.length = B.map List.length → 3 ≤ A.length →
      Rain.computeValues delta [npMeanQ A] [npMeanQ B] =
        (Rain.computeValues delta A B).map (fun out => [npMeanQ out])) ∧
    (∀ (A B : List (List ℚ)), A.map List.length = B.map List.length →
      3 ≤ A.length →
      RainMean.computeValues [npMeanQ A] [npMeanQ B] =
        [npMeanQ (RainMean.computeValues A B)]) ∧
    (∀ (A B C : List (List ℚ)), A.map List.length = B.map List.length →
      B.map List.length = C.map List.length → 3 ≤ A.length →
      LiquidPrecip.computeValues [npMeanQ A] [npMeanQ B] [npMeanQ C] =
        [npMeanQ (LiquidPrecip.computeValues A B C)]) ∧
    (∀ (A : List (List ℚ)), 3 ≤ A.length →
      SolidPrecip.computeValues [npMeanQ A] =
        [npMeanQ (SolidPrecip.computeValues A)]) ∧
    (∀ (A B : List (List ℚ)), A.map List.length = B.map List.length →
      3 ≤ A.length →
      NetPrecip.computeValues [npMeanQ A] [npMeanQ B] =
        [npMeanQ (NetPrecip.computeValues A B)]) ∧
    (∀ (A B C : List (List ℚ)), A.map List.length = B.map List.length →
      B.map List.length = C.map List.length → 3 ≤ A.length →
      NetWaterFlux.computeValues [npMeanQ A] [npMeanQ B] [npMeanQ C] =
        [npMeanQ (NetWaterFlux.computeValues A B C)]) ∧
    (∀ (A B : List (List ℚ)), A.map List.length = B.map List.length →
      3 ≤ A.length →
      WaterForcing.computeValues [npMeanQ A] [npMeanQ B] =
        [npMeanQ (WaterForcing.computeValues A B)]) ∧
    (∀ (A B : List (List ℚ)), A.map List.length = B.map List.length →
      3 ≤ A.length →
      RunOff.computeValues [npMeanQ A] [npMeanQ B] =
        [npMeanQ (RunOff.computeValues A B)]) ∧
    (∀ (A B C D : List (List ℚ)), A.map List.length = B.map List.length →
      B.map List.length = C.map List.length →
      C.map List.length = D.map List.length → 3 ≤ A.length →
      NetRadiation.computeValues [npMeanQ A] [npMeanQ B] [npMeanQ C] [npMeanQ D] =
        [npMeanQ (NetRadiation.computeValues A B C D)]) ∧
    (∀ (A B : List (List ℚ)), A.map List.length = B.map List.length →
      3 ≤ A.length →
      NetLWRadiation.computeValues [npMeanQ A] [npMeanQ B] =
        [npMeanQ (NetLWRadiation.computeValues A B)]) ∧
    (∀ (DX DY : ℚ) (U V : List (List (List (List ℚ)))) (sh : List (List ℕ)),
      U.length = V.length → 3 ≤ U.length →
      (∀ m ∈ U, shape3 m = sh) → (∀ m ∈ V, shape3 m = sh) →
      Vorticity.computeValues DX DY [npMeanQ3 U] [npMeanQ3 V] =
        [npMeanQ3 (Vorticity.computeValues DX DY U V)]) := by
  refine ⟨?_, ?_, ?_, ?_, ?_, ?_, ?_, ?_, ?_, ?_, ?_⟩
  · intro delta A B hd hsh _
    simp only [Rain.computeValues, if_neg hd, Except.map]
    exact congrArg Except.ok (mean_commute_add A B hsh)
  · intro A B hsh _
    exact mean_commute_add A B hsh
  · intro A B C hAB hBC _
    unfold LiquidPrecip.computeValues
    rw [mean_commute_add A B hAB]
    exact mean_commute_sub (zip2Q (· + ·) A B) C
      (by rw [zip2Q_shape (· + ·) A B hAB, hAB, hBC])
  · intro A _
    rfl
  · intro A B hsh _
    exact mean_commute_sub A B hsh
  · intro A B C hAB hBC _
    unfold NetWaterFlux.computeValues
    rw [mean_commute_sub A B hAB]
    exact mean_commute_add (zip2Q (· - ·) A B) C
      (by rw [zip2Q_shape (· - ·) A B hAB, hAB, hBC])
  · intro A B hsh _
    exact mean_commute_add A B hsh
  · intro A B hsh _
    exact mean_commute_add A B hsh
  · intro A B C D hAB hBC hCD _
    unfold NetRadiation.computeValues
    rw [mean_commute_sub A B hAB]
    rw [mean_commute_add (zip2Q (· - ·) A B) C
      (by rw [zip2Q_shape (· - ·) A B hAB, hAB, hBC])]
    exact mean_commute_sub (zip2Q (· + ·) (zip2Q (· - ·) A B) C) D
      (by rw [zip2Q_shape (· + ·) (zip2Q (· - ·) A B) C
            (by rw [zip2Q_shape (· - ·) A B hAB, hAB, hBC]),
          zip2Q_shape (· - ·) A B hAB, hAB, hBC, hCD])
  · intro A B hsh _
    exact mean_commute_sub A B hsh
  · intro DX DY U V sh hlen h3 hU hV
    exact vorticity_mean_commute DX DY U V sh hlen
      (by intro h; rw [h] at h3; simp at h3) hU hV

/-- C8 amended witness: the Rain and Vorticity conjuncts instantiated on
concrete 3-step chunks, all hypotheses discharged by computation. -/
theorem linear_variables_commute_with_averaging_witness :
    ((86400 : ℚ) ≠ 0 ∧
     List.map List.length [[(1 : ℚ)], [2], [3]] =
       List.map List.length [[(4 : ℚ)], [5], [6]] ∧
     3 ≤ List.length [[(1 : ℚ)], [2], [3]]) ∧
    Rain.computeValues 86400 [npMeanQ [[(1 : ℚ)], [2], [3]]]
        [npMeanQ [[(4 : ℚ)], [5], [6]]] =
      (Rain.computeValues 86400 [[(1 : ℚ)], [2], [3]] [[(4 : ℚ)], [5], [6]]).map
        (fun out => [npMeanQ out]) ∧
    Vorticity.computeValues 2 3
        [npMeanQ3 [[[[(1 : ℚ), 2], [3, 4]]], [[[5, 6], [7, 8]]], [[[9, 10], [11, 12]]]]]
        [npMeanQ3 [[[[(2 : ℚ), 1], [0, 3]]], [[[4, 4], [5, 5]]], [[[6, 7], [8, 9]]]]] =
      [npMeanQ3 (Vorticity.computeValues 2 3
        [[[[(1 : ℚ), 2], [3, 4]]], [[[5, 6], [7, 8]]], [[[9, 10], [11, 12]]]]
        [[[[(2 : ℚ), 1], [0, 3]]], [[[4, 4], [5, 5]]], [[[6, 7], [8, 9]]]])] :=
  ⟨⟨by norm_num, by decide, by decide⟩,
   linear_variables_commute_with_averaging.1 86400 [[(1 : ℚ)], [2], [3]]
     [[(4 : ℚ)], [5], [6]] (by norm_num) (by decide) (by decide),
   linear_variables_commute_with_averaging.2.2.2.2.2.2.2.2.2.2 2 3
     [[[[(1 : ℚ), 2], [3, 4]]], [[[5, 6], [7, 8]]], [[[9, 10], [11, 12]]]]
     [[[[(2 : ℚ), 1], [0, 3]]], [[[4, 4], [5, 5]]], [[[6, 7], [8, 9]]]]
     [[2, 2]] (by decide) (by decide) (by decide) (by decide)⟩
